import Mathlib

/-!
Verification development for the geoinzicht-app data-preparation scripts
(`build_geojson.py`, `enrich_geojson.py`, `enrich_batch.py`,
`enrich_from_sql.py`, `enrich_flora_fauna.py`).

The Python code is shallowly embedded: JSON scalar values become the
inductive type `Val` (Python floats are modelled as rationals), Python
dicts become insertion-ordered association lists with dict-style update
(`setPair`), and the imperative per-feature loops become `List.foldl`
over an explicit state.  Network responses are modelled as pure data
passed in as parameters (a WFS page at offset `start` is the
corresponding slice of the full remote record list, and the server's
`numberMatched` is the remote list's length).
-/

namespace Geo

/-- JSON scalar values as they occur in feature properties.  Python
floats are modelled as rationals. -/
inductive Val where
  | vnull
  | vint (n : Int)
  | vfloat (q : Rat)
  | vstr (s : String)
deriving DecidableEq

/-- Python truthiness of a scalar (`if fid:` / `if not props.get(...)`).
`None`, `""`, `0` and `0.0` are falsy. -/
def truthy : Val → Bool
  | .vnull => false
  | .vint n => n ≠ 0
  | .vfloat q => q ≠ 0
  | .vstr s => s ≠ ""

/-- Association-list lookup, first binding wins (Python `dict.get`). -/
def lookupKey {α : Type} : List (String × α) → String → Option α
  | [], _ => none
  | p :: t, k => if p.1 = k then some p.2 else lookupKey t k

/-- Dict-style update `d[k] = v`: replace the first binding of `k`
in place, else append a new binding (Python dicts keep insertion
order and keep the original position on overwrite). -/
def setPair {α : Type} : List (String × α) → String → α → List (String × α)
  | [], k, v => [(k, v)]
  | p :: t, k, v => if p.1 = k then (k, v) :: t else p :: setPair t k v

/-- Lookup keyed by a `Val` (the stats dicts built by the enrichers are
keyed by whatever value the remote id attribute had). -/
def lookupVal {α : Type} : List (Val × α) → Val → Option α
  | [], _ => none
  | p :: t, k => if p.1 = k then some p.2 else lookupVal t k

/-- Add a string to a set-modelled-as-list if not already present
(Python `set.add`, with insertion order retained until sorting). -/
def insertNew (l : List String) (s : String) : List String :=
  if l.contains s then l else l ++ [s]

/-- Insert into a `≤`-sorted list of strings. -/
def insertSorted (s : String) : List String → List String
  | [] => [s]
  | t :: ts => if s ≤ t then s :: t :: ts else t :: insertSorted s ts

/-- Python `sorted` on a list of strings. -/
def sortStrings (l : List String) : List String := l.foldr insertSorted []

/-- `clean_value` from `build_geojson.py`: convert CBS/PDOK
missing-data markers to `None`.  Numeric values `≤ -99990` are
dropped. -/
def clean_value : Val → Option Val
  | .vnull => none
  | .vint n => if n ≤ -99990 then none else some (.vint n)
  | .vfloat q => if q ≤ -99990 then none else some (.vfloat q)
  | .vstr s => some (.vstr s)

/-- Python `round(v, 2)` on the rational model of floats (rounding to
the nearest multiple of 1/100; the binary-float tie-breaking of CPython
is abstracted by the float-as-rational model). -/
def round2 (q : Rat) : Rat := ((round (q * 100) : Int) : Rat) / 100

/-- The value-storing step shared by `build_year` and the enrichment
merges: `v = clean_value(raw); if v is not None: if isinstance(v, float):
v = round(v, 2)`; returns `none` when nothing is stored. -/
def storeVal (raw : Val) : Option Val :=
  match clean_value raw with
  | none => none
  | some (.vfloat q) => some (.vfloat (round2 q))
  | some w => some w

/-- The indicator loop shared verbatim by `build_year` (step 4) and
`enrich_year` (step 5): for each `(app_key, pdok_field)` of the field
map, store the cleaned (and float-rounded) value of `src[pdok_field]`
into the accumulating property dict, recording `app_key` in the
indicators-with-data set when a value was stored. -/
def applyFieldMap (src : List (String × Val)) (fm : List (String × String))
    (acc : List (String × Val)) (inds : List String) :
    List (String × Val) × List String :=
  fm.foldl (fun p kv =>
    match storeVal ((lookupKey src kv.2).getD .vnull) with
    | some v => (setPair p.1 kv.1 v, insertNew p.2 kv.1)
    | none => p) (acc, inds)

/-! ## Field resolution (`resolve_fields` of `build_geojson.py`) -/

/-- `needle` is a leading run of `hay` (character-list comparison). -/
def leadsList : List Char → List Char → Bool
  | [], _ => true
  | _ :: _, [] => false
  | a :: as, b :: bs => a = b && leadsList as bs

/-- `needle` occurs as a contiguous run somewhere in `hay`. -/
def subList (needle : List Char) : List Char → Bool
  | [] => needle.isEmpty
  | b :: bs => leadsList needle (b :: bs) || subList needle bs

/-- Python's `needle in hay` substring test. -/
def strContains (hay needle : String) : Bool := subList needle.data hay.data

/-- ASCII lowercasing of one character (`str.lower` restricted to the
ASCII attribute names the service uses). -/
def lowerChar (c : Char) : Char :=
  if 'A' ≤ c ∧ c ≤ 'Z' then Char.ofNat (c.toNat + 32) else c

/-- Python `s.lower()` on ASCII strings. -/
def toLowerStr (s : String) : String := ⟨s.data.map lowerChar⟩

/-- The dict comprehension `avail_lower = {f.lower(): f for f in available}`:
later entries override earlier ones on equal lowercased keys. -/
def lowerMapOf (available : List String) : List (String × String) :=
  available.foldl (fun m f => setPair m (toLowerStr f) f) []

/-- Resolution of a single app key in `resolve_fields`: first pass over
the candidates accepts an exact name match or a case-insensitive exact
match (via `avail_lower`); only if every candidate fails both does the
fuzzy pass run, taking the first available name that contains some
candidate as a case-insensitive substring. -/
def resolveKey (avail_lower : List (String × String)) (available : List String)
    (pdok_names : List String) : Option String :=
  match pdok_names.findSome? (fun c =>
      if available.contains c then some c else lookupKey avail_lower (toLowerStr c)) with
  | some r => some r
  | none => pdok_names.findSome? (fun c =>
      available.find? (fun af => strContains (toLowerStr af) (toLowerStr c)))

/-- `resolve_fields`, parameterised by the candidate table
(`PDOK_FIELDS` in the source). -/
def resolve_fields_t (table : List (String × List String)) (available : List String) :
    List (String × String) :=
  let avail_lower := lowerMapOf available
  table.foldl (fun resolved p =>
    match resolveKey avail_lower available p.2 with
    | some r => setPair resolved p.1 r
    | none => resolved) []

/-- The per-candidate three-tier matching described by the spec
sentence for claim C3: each candidate in order is tried for an exact
match, else a case-insensitive exact match, else a case-insensitive
substring match, and the first candidate that succeeds on any tier
wins.  (Definition follows the spec's words, for comparison with
`resolveKey`, which follows the source.) -/
def resolveKeySpec (avail_lower : List (String × String)) (available : List String)
    (pdok_names : List String) : Option String :=
  pdok_names.findSome? (fun c =>
    if available.contains c then some c
    else match lookupKey avail_lower (toLowerStr c) with
    | some f => some f
    | none => available.find? (fun af => strContains (toLowerStr af) (toLowerStr c)))

/-- The resolver as the spec describes it, per claim C3. -/
def resolve_fields_spec (table : List (String × List String)) (available : List String) :
    List (String × String) :=
  let avail_lower := lowerMapOf available
  table.foldl (fun resolved p =>
    match resolveKeySpec avail_lower available p.2 with
    | some r => setPair resolved p.1 r
    | none => resolved) []

/-- The `PDOK_FIELDS` table of `build_geojson.py`. -/
def PDOK_FIELDS : List (String × List String) :=
  [("aantal_inwoners",        ["aantalInwoners"]),
   ("mannen",                 ["mannen"]),
   ("vrouwen",                ["vrouwen"]),
   ("0_15",                   ["percentagePersonen0Tot15Jaar"]),
   ("15_25",                  ["percentagePersonen15Tot25Jaar"]),
   ("25_45",                  ["percentagePersonen25Tot45Jaar"]),
   ("45_65",                  ["percentagePersonen45Tot65Jaar"]),
   ("65plus",                 ["percentagePersonen65JaarEnOuder"]),
   ("huishoudens",            ["aantalHuishoudens"]),
   ("gem_huishouden_grootte", ["gemiddeldeHuishoudsgrootte"]),
   ("bevolkingsdichtheid",    ["bevolkingsdichtheidInwonersPerKm2"]),
   ("woningvoorraad",         ["woningvoorraad"]),
   ("gem_woz_waarde",         ["gemiddeldeWoningwaarde"]),
   ("koopwoningen",           ["percentageKoopwoningen"]),
   ("huurwoningen",           ["percentageHuurwoningen"]),
   ("pct_eengezins",          ["percentageEengezinswoning"]),
   ("gem_aardgas",            ["gemiddeldGasverbruikTotaal"]),
   ("gem_elektriciteit",      ["gemiddeldElektriciteitsverbruikTotaal"]),
   ("gem_inkomen_inwoner",    ["gemiddeldInkomenPerInwoner", "gemiddeldInkomenPerInkomensontvanger"]),
   ("arbeidsparticipatie",    ["nettoArbeidsparticipatie"]),
   ("bedrijfsvestigingen",    ["aantalBedrijfsvestigingen"]),
   ("afstand_huisarts",       ["huisartsenpraktijkGemiddeldeAfstandInKm"]),
   ("afstand_supermarkt",     ["groteSupermarktGemiddeldeAfstandInKm"]),
   ("personenautos",          ["personenautosTotaal"])]

/-- `resolve_fields` with the concrete `PDOK_FIELDS` table. -/
def resolve_fields (available : List String) : List (String × String) :=
  resolve_fields_t PDOK_FIELDS available

/-! ## Pagination (`download_features` of `build_geojson.py`)

The remote collection is modelled as the full list of its records; the
WFS response for a page request at `startIndex = start` with
`count = PAGE_SIZE` holds the records `(remote.drop start).take
PAGE_SIZE`, and its `numberMatched` field is `remote.length`. -/

/-- `PAGE_SIZE = 1000`, the PDOK per-request maximum. -/
def PAGE_SIZE : Nat := 1000

/-- The page of records the modelled WFS service returns for a request
at offset `start`. -/
def wfsPage {α : Type} (remote : List α) (start : Nat) : List α :=
  (remote.drop start).take PAGE_SIZE

/-- The `while True` pagination loop of `download_features`, with
explicit fuel (the loop advances `start` by a full page each iteration,
so `remote.length + 1` units of fuel always suffice).  Returns the list
of requested start offsets together with the accumulated features.
The loop breaks when a page is empty, when the accumulated count has
reached the (positive) `numberMatched` total, or when a page comes back
shorter than `PAGE_SIZE`; otherwise `start += len(features)`. -/
def downloadFeaturesAux {α : Type} (remote : List α) :
    Nat → Nat → List α → List Nat → List Nat × List α
  | 0, _, acc, reqs => (reqs, acc)
  | fuel + 1, start, acc, reqs =>
    let page := wfsPage remote start
    let acc2 := acc ++ page
    let reqs2 := reqs ++ [start]
    if page.length = 0 then (reqs2, acc2)
    else if 0 < remote.length ∧ remote.length ≤ acc2.length then (reqs2, acc2)
    else if page.length < PAGE_SIZE then (reqs2, acc2)
    else downloadFeaturesAux remote fuel (start + page.length) acc2 reqs2

/-- `download_features`: all pages from offset 0. -/
def download_features {α : Type} (remote : List α) : List Nat × List α :=
  downloadFeaturesAux remote (remote.length + 1) 0 [] []

/-! ## Geometry (`round_coords`, `simplify_geometry` of `build_geojson.py`) -/

/-- Nested GeoJSON coordinate arrays: a number or an array of
coordinate trees. -/
inductive CoordTree where
  | num (q : Rat)
  | arr (l : List CoordTree)

mutual
/-- Decidable equality of coordinate trees. -/
def decEqCoordTree : (a b : CoordTree) → Decidable (a = b)
  | .num a, .num b =>
    match decEq a b with
    | isTrue h => isTrue (by rw [h])
    | isFalse h => isFalse (fun hh => by injection hh with k; exact h k)
  | .num _, .arr _ => isFalse (fun hh => by injection hh)
  | .arr _, .num _ => isFalse (fun hh => by injection hh)
  | .arr l, .arr m =>
    match decEqCoordList l m with
    | isTrue h => isTrue (by rw [h])
    | isFalse h => isFalse (fun hh => by injection hh with k; exact h k)

/-- Decidable equality of lists of coordinate trees. -/
def decEqCoordList : (l m : List CoordTree) → Decidable (l = m)
  | [], [] => isTrue rfl
  | [], _ :: _ => isFalse (fun hh => by injection hh)
  | _ :: _, [] => isFalse (fun hh => by injection hh)
  | a :: as, b :: bs =>
    match decEqCoordTree a b, decEqCoordList as bs with
    | isTrue h1, isTrue h2 => isTrue (by rw [h1, h2])
    | isFalse h1, _ => isFalse (fun hh => by injection hh with k1 k2; exact h1 k1)
    | isTrue _, isFalse h2 => isFalse (fun hh => by injection hh with k1 k2; exact h2 k2)
end

instance : DecidableEq CoordTree := decEqCoordTree

/-- Is this node a bare number (Python `isinstance(c, (int, float))`)? -/
def isNumC : CoordTree → Bool
  | .num _ => true
  | .arr _ => false

/-- Python `round(c, 5)` on the rational model. -/
def round5 (q : Rat) : Rat := ((round (q * 100000) : Int) : Rat) / 100000

/-- Rounding of one element of a flat coordinate list (`round(c,
precision)`; a non-number in a flat list is left unchanged here, which
is unreachable for well-formed geometries). -/
def roundLeaf : CoordTree → CoordTree
  | .num q => .num (round5 q)
  | t => t

/-- Does the list start with a bare number (`coords and
isinstance(coords[0], (int, float))`)? -/
def headNum : List CoordTree → Bool
  | [] => false
  | t :: _ => isNumC t

mutual
/-- `round_coords` with `precision = 5`: a flat list whose first entry
is a number has each entry rounded; any other list is recursed into;
a non-list argument is returned unchanged. -/
def round_coords : CoordTree → CoordTree
  | .num q => .num q
  | .arr l => if headNum l then .arr (l.map roundLeaf) else .arr (roundCoordsList l)

/-- `round_coords` mapped over the entries of a nested list. -/
def roundCoordsList : List CoordTree → List CoordTree
  | [] => []
  | t :: ts => round_coords t :: roundCoordsList ts
end

/-- Every entry of the list is a bare number (a flat coordinate
position). -/
def allNum (l : List CoordTree) : Bool := l.all isNumC

mutual
/-- Well-formed polygon-like coordinate structure: an array whose
children are either all numbers (a position) or all well-formed
arrays.  A bare number is not itself a geometry. -/
def wfTree : CoordTree → Bool
  | .num _ => false
  | .arr l => allNum l || wfList l

/-- Well-formedness of every child. -/
def wfList : List CoordTree → Bool
  | [] => true
  | t :: ts => wfTree t && wfList ts
end

mutual
/-- Every number in the tree is a multiple of `1/100000`, i.e. has at
most 5 decimal places (expressed as a fixed point of rounding at the
fifth decimal). -/
def prec5 : CoordTree → Bool
  | .num q => decide ((((round (q * 100000) : Int) : Rat)) = q * 100000)
  | .arr l => prec5List l

/-- `prec5` for every child. -/
def prec5List : List CoordTree → Bool
  | [] => true
  | t :: ts => prec5 t && prec5List ts
end

/-- `simplify_geometry`: the Shapely pipeline (`shape`, `make_valid`,
`simplify`) is modelled by the abstract function `simpFun`, which
returns `none` when the Python code would raise, and by the emptiness
test `isEmp`.  On an empty simplification result the original geometry
dict is returned as-is; on an exception the original is returned with
`round_coords` applied; otherwise the simplified geometry is returned
with `round_coords` applied. -/
def simplify_geometry (simpFun : CoordTree → Option CoordTree)
    (isEmp : CoordTree → Bool) (g : CoordTree) : CoordTree :=
  match simpFun g with
  | none => round_coords g
  | some s => if isEmp s then g else round_coords s

/-! ## Feature collections -/

/-- A GeoJSON feature: a property dict and a geometry. -/
structure Feature where
  props : List (String × Val)
  geom : CoordTree
deriving DecidableEq

/-- A raw downloaded feature, whose geometry may be missing. -/
structure RawFeature where
  props : List (String × Val)
  geom : Option CoordTree
deriving DecidableEq

/-- The `metadata` mapping written by the scripts.  Fields that a given
script does not write keep their previous (or default) value. -/
structure Meta where
  ftype : String
  year : Int
  generated : String
  count : Nat
  with_data : Nat
  indicators : List String
  indicators_count : Nat
  enriched_at : String
  gbif_source : String
  bbg_peiljaar : Option Int
deriving DecidableEq

/-- A persisted feature collection. -/
structure Collection where
  meta : Meta
  features : List Feature
deriving DecidableEq

/-! ## The build (`build_year` of `build_geojson.py`) -/

/-- The admin-field loop of `build_year` step 4: copy every admin field
whose raw value is not `None` into the fresh property dict. -/
def buildAdmin (rawProps : List (String × Val)) (adminFields : List String) :
    List (String × Val) :=
  adminFields.foldl (fun c af =>
    match lookupKey rawProps af with
    | some v => if v = .vnull then c else setPair c af v
    | none => c) []

/-- The property dict `clean` built for one raw feature. -/
def buildProps (adminFields : List String) (fm : List (String × String))
    (rawProps : List (String × Val)) (inds : List String) :
    List (String × Val) × List String :=
  applyFieldMap rawProps fm (buildAdmin rawProps adminFields) inds

/-- State of the `build_year` step-4 loop. -/
structure BuildState where
  feats : List Feature
  inds : List String
deriving DecidableEq

/-- One iteration of the step-4 loop: skip the raw feature when its id
field is falsy or its geometry is missing; otherwise build the cleaned
property dict, simplify the geometry and append the feature. -/
def buildStep (simpFun : CoordTree → Option CoordTree) (isEmp : CoordTree → Bool)
    (adminFields : List String) (idf : String) (fm : List (String × String))
    (st : BuildState) (rf : RawFeature) : BuildState :=
  if truthy ((lookupKey rf.props idf).getD .vnull) = false then st
  else match rf.geom with
  | none => st
  | some g =>
    let pr := buildProps adminFields fm rf.props st.inds
    { feats := st.feats ++ [{ props := pr.1, geom := simplify_geometry simpFun isEmp g }],
      inds := pr.2 }

/-- The whole step-4 loop. -/
def buildFold (simpFun : CoordTree → Option CoordTree) (isEmp : CoordTree → Bool)
    (adminFields : List String) (idf : String) (fm : List (String × String))
    (raw : List RawFeature) : BuildState :=
  raw.foldl (buildStep simpFun isEmp adminFields idf fm) ⟨[], []⟩

/-- `build_year` steps 4-5: process the raw download and assemble the
written feature collection.  `clock` is the value `time.strftime`
returned when the metadata was generated. -/
def build_year (simpFun : CoordTree → Option CoordTree) (isEmp : CoordTree → Bool)
    (ftype : String) (yr : Int) (adminFields : List String) (idf : String)
    (fm : List (String × String)) (raw : List RawFeature) (clock : String) :
    Collection :=
  let st := buildFold simpFun isEmp adminFields idf fm raw
  let withData := (st.feats.filter (fun f => adminFields.length < f.props.length)).length
  let inds := sortStrings st.inds
  { meta :=
    { ftype := ftype, year := yr, generated := clock, count := st.feats.length,
      with_data := withData, indicators := inds, indicators_count := inds.length,
      enriched_at := "", gbif_source := "", bbg_peiljaar := none },
    features := st.feats }

/-! ## Enrichment merges (`enrich_year` of `enrich_geojson.py`,
`enrich` of `enrich_batch.py`) -/

/-- State of an enrichment merge loop. -/
structure MergeState where
  feats : List Feature
  enriched : Nat
  inds : List String
deriving DecidableEq

/-- The id value `props.get(id_field, "")` of a feature. -/
def getFid (props : List (String × Val)) (idf : String) : Val :=
  (lookupKey props idf).getD (.vstr "")

/-- `fid and fid in stats_data`: the feature has a truthy id that
occurs in the fetched stats dict. -/
def isMatched (stats : List (Val × List (String × Val))) (idf : String)
    (f : Feature) : Bool :=
  truthy (getFid f.props idf) && (lookupVal stats (getFid f.props idf)).isSome

/-- The per-feature merge of `enrich_year` step 5, returning the
feature's new properties (indicator tracking handled in the loop
state). -/
def mergeFeatureY (fm : List (String × String))
    (stats : List (Val × List (String × Val))) (idf : String) (f : Feature) :
    Feature :=
  let fid := getFid f.props idf
  if truthy fid then
    match lookupVal stats fid with
    | some row => { props := (applyFieldMap row fm f.props []).1, geom := f.geom }
    | none => f
  else f

/-- One iteration of the `enrich_year` merge loop. -/
def mergeStepY (fm : List (String × String))
    (stats : List (Val × List (String × Val))) (idf : String)
    (st : MergeState) (f : Feature) : MergeState :=
  let fid := getFid f.props idf
  if truthy fid then
    match lookupVal stats fid with
    | some row =>
      let pr := applyFieldMap row fm f.props st.inds
      { feats := st.feats ++ [{ props := pr.1, geom := f.geom }],
        enriched := st.enriched + 1, inds := pr.2 }
    | none => { st with feats := st.feats ++ [f] }
  else { st with feats := st.feats ++ [f] }

/-- The whole `enrich_year` merge loop (step 5). -/
def enrichMergeY (fm : List (String × String))
    (stats : List (Val × List (String × Val))) (idf : String)
    (feats : List Feature) : MergeState :=
  feats.foldl (mergeStepY fm stats idf) ⟨[], 0, []⟩

/-- `enrich_year` steps 5-7 on an already-loaded collection: merge the
fetched stats and replace the metadata. -/
def enrich_year (fm : List (String × String))
    (stats : List (Val × List (String × Val))) (idf : String)
    (ftype : String) (yr : Int) (clock : String) (c : Collection) : Collection :=
  let st := enrichMergeY fm stats idf c.features
  let inds := sortStrings st.inds
  { meta :=
    { ftype := ftype, year := yr, generated := clock, count := st.feats.length,
      with_data := st.enriched, indicators := inds, indicators_count := inds.length,
      enriched_at := "", gbif_source := "", bbg_peiljaar := none },
    features := st.feats }

/-- `reverse_map = {v: k for k, v in field_map.items()}` (later entries
override earlier ones on duplicate PDOK names). -/
def reverseMap (fm : List (String × String)) : List (String × String) :=
  fm.foldl (fun m p => setPair m p.2 p.1) []

/-- The per-feature merge of `enrich_batch.enrich` step 5: iterate over
the fetched record's own entries, mapping each PDOK name back to its
app key through the reverse map. -/
def mergeBatchProps (rm : List (String × String)) (row : List (String × Val))
    (props : List (String × Val)) (inds : List String) :
    List (String × Val) × List String :=
  row.foldl (fun p pv =>
    match lookupKey rm pv.1 with
    | some ak =>
      match storeVal pv.2 with
      | some v => (setPair p.1 ak v, insertNew p.2 ak)
      | none => p
    | none => p) (props, inds)

/-- The per-feature result of the batch merge. -/
def mergeFeatureB (rm : List (String × String))
    (stats : List (Val × List (String × Val))) (idf : String) (f : Feature) :
    Feature :=
  let fid := getFid f.props idf
  if truthy fid then
    match lookupVal stats fid with
    | some row => { props := (mergeBatchProps rm row f.props []).1, geom := f.geom }
    | none => f
  else f

/-- One iteration of the batch merge loop. -/
def mergeStepB (rm : List (String × String))
    (stats : List (Val × List (String × Val))) (idf : String)
    (st : MergeState) (f : Feature) : MergeState :=
  let fid := getFid f.props idf
  if truthy fid then
    match lookupVal stats fid with
    | some row =>
      let pr := mergeBatchProps rm row f.props st.inds
      { feats := st.feats ++ [{ props := pr.1, geom := f.geom }],
        enriched := st.enriched + 1, inds := pr.2 }
    | none => { st with feats := st.feats ++ [f] }
  else { st with feats := st.feats ++ [f] }

/-- The whole batch merge loop (step 5 of `enrich_batch.enrich`). -/
def enrichMergeB (rm : List (String × String))
    (stats : List (Val × List (String × Val))) (idf : String)
    (feats : List Feature) : MergeState :=
  feats.foldl (mergeStepB rm stats idf) ⟨[], 0, []⟩

/-- `enrich_batch.enrich` steps 5-6 on an already-loaded collection. -/
def enrich_batch (fm : List (String × String))
    (stats : List (Val × List (String × Val))) (idf : String)
    (ftype : String) (yr : Int) (clock : String) (c : Collection) : Collection :=
  let st := enrichMergeB (reverseMap fm) stats idf c.features
  let inds := sortStrings st.inds
  { meta :=
    { ftype := ftype, year := yr, generated := clock, count := st.feats.length,
      with_data := st.enriched, indicators := inds, indicators_count := inds.length,
      enriched_at := "", gbif_source := "", bbg_peiljaar := none },
    features := st.feats }

/-! ## Name normalization (`normalize_naam` of `enrich_flora_fauna.py`
and `enrich_from_sql.py`) -/

/-- Python's whitespace class, restricted to the characters occurring
in the data. -/
def isWsChar (c : Char) : Bool := c = ' ' || c = '\t' || c = '\n' || c = '\r'

/-- Drop trailing whitespace from a character list. -/
def trimRightList (cs : List Char) : List Char :=
  ((cs.reverse.dropWhile isWsChar)).reverse

/-- Python `str.strip()` on a character list. -/
def trimList (cs : List Char) : List Char :=
  (trimRightList cs).dropWhile isWsChar

/-- Does the character list end with the given suffix? -/
def endsWithList (cs suf : List Char) : Bool := leadsList suf.reverse cs.reverse

/-- One `re.sub(r'\s*SUFFIX\s*$', '', s)` with a literal suffix: if the
string ends with optional whitespace followed by the suffix (and
trailing whitespace), remove that tail; otherwise leave the string
unchanged. -/
def stripTail (s : String) (suf : String) : String :=
  let t := trimRightList s.data
  if endsWithList t suf.data then ⟨trimRightList (t.take (t.length - suf.data.length))⟩
  else s

/-- `normalize_naam`: strip, remove parenthetical administrative-type
suffixes, strip again and lowercase (ASCII model of `str.lower`). -/
def normalize_naam (naam : String) : String :=
  if naam = "" then ""
  else
    let n : String := ⟨trimList naam.data⟩
    let n := stripTail n "(gemeente)"
    let n := stripTail n "(L.)"
    let n := stripTail n "(O.)"
    let n := stripTail n "(GR.)"
    let n := stripTail n "(NH.)"
    ⟨(trimList n.data).map lowerChar⟩

/-! ## Flora/fauna enrichment (`enrich_file` of `enrich_flora_fauna.py`) -/

/-- The gemeente name of a feature (`props.get(name_field, "")`; a
missing or non-string name behaves as the empty, falsy string). -/
def getNaam (props : List (String × Val)) (nameField : String) : String :=
  match lookupKey props nameField with
  | some (.vstr s) => s
  | _ => ""

/-- Is a fetched flora/fauna value stored (`val is not None and
val > 0`)? -/
def ffPos : Option Int → Bool
  | none => false
  | some n => 0 < n

/-- The per-key loop of the flora/fauna merge: store every positive
indicator value of the row into the feature's properties, tracking the
stored keys and whether anything was added. -/
def floraMergeProps (row : List (String × Option Int)) (props : List (String × Val))
    (inds : List String) : List (String × Val) × List String × Bool :=
  row.foldl (fun p kv =>
    match kv.2 with
    | some n => if 0 < n then (setPair p.1 kv.1 (.vint n), insertNew p.2.1 kv.1, true) else p
    | none => p) (props, inds, false)

/-- The bare property-dict evolution of the flora/fauna per-key loop
(claim-side view of `floraMergeProps`, ignoring the indicator set and
the added flag). -/
def floraPropsFold (row : List (String × Option Int)) (props : List (String × Val)) :
    List (String × Val) :=
  row.foldl (fun pr kv =>
    match kv.2 with
    | some n => if 0 < n then setPair pr kv.1 (.vint n) else pr
    | none => pr) props

/-- One iteration of the flora/fauna merge loop: skip features with a
falsy name or without a (non-empty) fetched row; otherwise add every
positive indicator and count the feature as enriched when at least one
value was added. -/
def floraStep (ffData : List (String × List (String × Option Int)))
    (nameField : String) (st : MergeState) (f : Feature) : MergeState :=
  let naam := getNaam f.props nameField
  if naam = "" then { st with feats := st.feats ++ [f] }
  else
    match lookupKey ffData (normalize_naam naam) with
    | some (kv :: row) =>
      let pr := floraMergeProps (kv :: row) f.props st.inds
      { feats := st.feats ++ [{ props := pr.1, geom := f.geom }],
        enriched := st.enriched + (if pr.2.2 then 1 else 0), inds := pr.2.1 }
    | some [] => { st with feats := st.feats ++ [f] }
    | none => { st with feats := st.feats ++ [f] }

/-- The whole flora/fauna merge loop. -/
def floraMerge (ffData : List (String × List (String × Option Int)))
    (nameField : String) (feats : List Feature) : MergeState :=
  feats.foldl (floraStep ffData nameField) ⟨[], 0, []⟩

/-- Union of the previous `metadata.indicators` with the indicators
that received data, as `sorted(existing | indicators_with_data)`. -/
def unionSorted (existing new : List String) : List String :=
  sortStrings (new.foldl insertNew (existing.foldl insertNew []))

/-- `enrich_file` of `enrich_flora_fauna.py` on an already-loaded
collection: merge the fetched flora/fauna rows; when no indicator
received data the file is not written and the old collection stands,
otherwise the metadata keeps its `count` and `with_data` and only the
indicator list, `enriched_at` and `gbif_source` are updated. -/
def flora_enrich_file (ffData : List (String × List (String × Option Int)))
    (nameField : String) (clock : String) (c : Collection) : Collection :=
  let st := floraMerge ffData nameField c.features
  if st.inds = [] then c
  else
    let inds := unionSorted c.meta.indicators st.inds
    { meta :=
      { c.meta with
        indicators := inds
        indicators_count := inds.length
        enriched_at := clock
        gbif_source := "GBIF API v1 (gbif.org)" },
      features := st.feats }

/-! ## SQL-sourced enrichment (`enrich_file` of `enrich_from_sql.py`) -/

/-- The per-feature merge of `enrich_from_sql.enrich_file`: the
bodemgebruik row (keyed by normalized name and nearest peiljaar) and
the landbouw row (keyed by normalized name and year, with fallback to
adjacent years) are folded into the properties; every non-`None` value
is stored and every stored key except `bbg_peiljaar` is recorded. -/
def sqlRowFold (excludeKey : Option String) (row : List (String × Val))
    (props : List (String × Val)) (inds : List String) :
    List (String × Val) × List String × Bool :=
  row.foldl (fun p kv =>
    if kv.2 = .vnull then p
    else (setPair p.1 kv.1 kv.2,
          (if excludeKey = some kv.1 then p.2.1 else insertNew p.2.1 kv.1), true))
    (props, inds, false)

/-- Landbouw row lookup with the year-offset fallback `[-1, 1, -2, 2]`,
skipping empty rows (`if not lbt_row`). -/
def lbtLookup (lbt : List ((String × Int) × List (String × Val)))
    (key : String) (yr : Int) : Option (List (String × Val)) :=
  let get1 := fun (y : Int) =>
    (lbt.find? (fun p => p.1.1 = key && p.1.2 = y)).map (fun p => p.2)
  let nonEmpty := fun (o : Option (List (String × Val))) =>
    match o with
    | some (_ :: _) => o
    | _ => none
  match nonEmpty (get1 yr) with
  | some r => some r
  | none =>
    match nonEmpty (get1 (yr - 1)) with
    | some r => some r
    | none =>
      match nonEmpty (get1 (yr + 1)) with
      | some r => some r
      | none =>
        match nonEmpty (get1 (yr - 2)) with
        | some r => some r
        | none => nonEmpty (get1 (yr + 2))

/-- One iteration of the SQL merge loop. -/
def sqlStep (bbg : List ((String × Int) × List (String × Val)))
    (lbt : List ((String × Int) × List (String × Val)))
    (domBodem : Bool) (domLandbouw : Bool) (nearestPj : Option Int)
    (nameField : String) (yr : Int) (st : MergeState) (f : Feature) : MergeState :=
  let naam := getNaam f.props nameField
  if naam = "" then { st with feats := st.feats ++ [f] }
  else
    let key := normalize_naam naam
    let bbgRow :=
      match nearestPj with
      | some pj =>
        if domBodem && key ≠ "" then
          match bbg.find? (fun p => p.1.1 = key && p.1.2 = pj) with
          | some (_, r :: rs) => some (r :: rs)
          | _ => none
        else none
      | none => none
    let p1 :=
      match bbgRow with
      | some row => sqlRowFold (some "bbg_peiljaar") row f.props st.inds
      | none => (f.props, st.inds, false)
    let lbtRow := if domLandbouw && key ≠ "" then lbtLookup lbt key yr else none
    let p2 :=
      match lbtRow with
      | some row =>
        let r := sqlRowFold none row p1.1 p1.2.1
        (r.1, r.2.1, p1.2.2 || r.2.2)
      | none => p1
    { feats := st.feats ++ [{ props := p2.1, geom := f.geom }],
      enriched := st.enriched + (if p2.2.2 then 1 else 0),
      inds := p2.2.1 }

/-- The whole SQL merge loop. -/
def sqlMerge (bbg lbt : List ((String × Int) × List (String × Val)))
    (domBodem domLandbouw : Bool) (nearestPj : Option Int)
    (nameField : String) (yr : Int) (feats : List Feature) : MergeState :=
  feats.foldl (sqlStep bbg lbt domBodem domLandbouw nearestPj nameField yr) ⟨[], 0, []⟩

/-- `enrich_file` of `enrich_from_sql.py` on an already-loaded
collection: when no indicator received data the file is not written,
otherwise only the indicator list, `enriched_at` and possibly
`bbg_peiljaar` are updated in the metadata (`count` in particular is
left as it was). -/
def sql_enrich_file (bbg lbt : List ((String × Int) × List (String × Val)))
    (domBodem domLandbouw : Bool) (nearestPj : Option Int)
    (nameField : String) (yr : Int) (clock : String) (c : Collection) : Collection :=
  let st := sqlMerge bbg lbt domBodem domLandbouw nearestPj nameField yr c.features
  if st.inds = [] then c
  else
    let inds := unionSorted c.meta.indicators st.inds
    { meta :=
      { c.meta with
        indicators := inds
        indicators_count := inds.length
        enriched_at := clock
        bbg_peiljaar :=
          if nearestPj.isSome && domBodem then nearestPj else c.meta.bbg_peiljaar },
      features := st.feats }

/-! ## Claim-side auxiliary definitions -/

/-- Is the scalar a number at or below the integer threshold `t`? -/
def vnumLE (v : Val) (t : Int) : Bool :=
  match v with
  | .vint n => n ≤ t
  | .vfloat q => q ≤ (t : Rat)
  | _ => false

/-- Spec-side notion for claim C7: the feature is matched and at least
one resolved indicator field of its remote record carries a
non-missing value, i.e. the merge stores at least one value into it. -/
def receivedNewValue (fm : List (String × String))
    (stats : List (Val × List (String × Val))) (idf : String) (f : Feature) : Bool :=
  truthy (getFid f.props idf) &&
    match lookupVal stats (getFid f.props idf) with
    | some row => fm.any (fun kv => (storeVal ((lookupKey row kv.2).getD .vnull)).isSome)
    | none => false

/-- Number of features that received at least one new non-missing
value (the quantity claim C7 says `with_data` reports). -/
def specReceivedCount (fm : List (String × String))
    (stats : List (Val × List (String × Val))) (idf : String)
    (feats : List Feature) : Nat :=
  (feats.filter (receivedNewValue fm stats idf)).length

/-- Number of features whose id is truthy and present in the fetched
stats (what the code's `enriched` counter actually counts). -/
def countMatched (stats : List (Val × List (String × Val))) (idf : String)
    (feats : List Feature) : Nat :=
  (feats.filter (isMatched stats idf)).length

/-- The metadata with the `generated` wall-clock timestamp blanked,
used to compare two build outputs modulo the generation time. -/
def metaSansGenerated (m : Meta) : Meta := { m with generated := "" }

/-! ## Helper lemmas: pagination -/

/-- Unfolding equation for one loop iteration. -/
theorem downloadFeaturesAux_succ {α : Type} (remote : List α) (fuel start : Nat)
    (acc : List α) (reqs : List Nat) :
    downloadFeaturesAux remote (fuel + 1) start acc reqs =
      (if (wfsPage remote start).length = 0 then (reqs ++ [start], acc ++ wfsPage remote start)
       else if 0 < remote.length ∧ remote.length ≤ (acc ++ wfsPage remote start).length then
         (reqs ++ [start], acc ++ wfsPage remote start)
       else if (wfsPage remote start).length < PAGE_SIZE then
         (reqs ++ [start], acc ++ wfsPage remote start)
       else downloadFeaturesAux remote fuel (start + (wfsPage remote start).length)
         (acc ++ wfsPage remote start) (reqs ++ [start])) := rfl

/-! ## Helper lemmas: association lists -/

theorem lookup_setPair_self {α : Type} (m : List (String × α)) (k : String) (v : α) :
    lookupKey (setPair m k v) k = some v := by
  induction m with
  | nil => simp [setPair, lookupKey]
  | cons p t ih =>
    by_cases h : p.1 = k
    · simp [setPair, h, lookupKey]
    · simp [setPair, h, lookupKey, ih]

theorem lookup_setPair_ne {α : Type} (m : List (String × α)) (k k2 : String) (v : α)
    (h : k2 ≠ k) : lookupKey (setPair m k v) k2 = lookupKey m k2 := by
  have hk : ¬ k = k2 := fun hh => h hh.symm
  induction m with
  | nil => simp [setPair, lookupKey, hk]
  | cons p t ih =>
    by_cases hp : p.1 = k
    · have hp2 : ¬ p.1 = k2 := by rw [hp]; exact hk
      simp [setPair, hp, lookupKey, hk, hp2]
    · simp [setPair, hp, lookupKey, ih]

/-! ## Helper lemmas: the shared indicator-storing fold -/

theorem applyFieldMap_nil (src : List (String × Val)) (acc : List (String × Val))
    (inds : List String) : applyFieldMap src [] acc inds = (acc, inds) := rfl

theorem applyFieldMap_cons (src : List (String × Val)) (a : String × String)
    (fm : List (String × String)) (acc : List (String × Val)) (inds : List String) :
    applyFieldMap src (a :: fm) acc inds =
      (match storeVal ((lookupKey src a.2).getD .vnull) with
       | some v => applyFieldMap src fm (setPair acc a.1 v) (insertNew inds a.1)
       | none => applyFieldMap src fm acc inds) := by
  simp only [applyFieldMap, List.foldl_cons]
  cases storeVal ((lookupKey src a.2).getD .vnull) <;> rfl

/-- The property-dict component of the fold does not depend on the
indicator accumulator. -/
theorem applyFieldMap_fst (src : List (String × Val)) (fm : List (String × String)) :
    ∀ acc inds inds2, (applyFieldMap src fm acc inds).1 = (applyFieldMap src fm acc inds2).1 := by
  induction fm with
  | nil => intro acc inds inds2; rfl
  | cons a fm ih =>
    intro acc inds inds2
    rw [applyFieldMap_cons, applyFieldMap_cons]
    cases storeVal ((lookupKey src a.2).getD .vnull) <;> apply ih

/-- Any binding of the fold's output dict either was already in the
input dict or is the stored value of one of the field map's entries. -/
theorem applyFieldMap_lookup (src : List (String × Val)) (fm : List (String × String)) :
    ∀ acc inds k v, lookupKey (applyFieldMap src fm acc inds).1 k = some v →
      lookupKey acc k = some v ∨
        ∃ pf, (k, pf) ∈ fm ∧ storeVal ((lookupKey src pf).getD .vnull) = some v := by
  induction fm with
  | nil => intro acc inds k v h; exact Or.inl h
  | cons a fm ih =>
    intro acc inds k v h
    rw [applyFieldMap_cons] at h
    cases hs : storeVal ((lookupKey src a.2).getD .vnull) with
    | none =>
      rw [hs] at h
      rcases ih _ _ _ _ h with h1 | ⟨pf, hm, hst⟩
      · exact Or.inl h1
      · exact Or.inr ⟨pf, List.mem_cons_of_mem _ hm, hst⟩
    | some v0 =>
      rw [hs] at h
      rcases ih _ _ _ _ h with h1 | ⟨pf, hm, hst⟩
      · by_cases hk : k = a.1
        · subst hk
          rw [lookup_setPair_self] at h1
          refine Or.inr ⟨a.2, ?_, ?_⟩
          · exact List.mem_cons_self _ _
          · rw [hs]; exact h1
        · rw [lookup_setPair_ne _ _ _ _ hk] at h1
          exact Or.inl h1
      · exact Or.inr ⟨pf, List.mem_cons_of_mem _ hm, hst⟩

/-- When every field-map entry for key `k` stores nothing, the fold
leaves the binding of `k` unchanged. -/
theorem applyFieldMap_skip (src : List (String × Val)) (fm : List (String × String)) :
    ∀ acc inds k,
      (∀ pf, (k, pf) ∈ fm → storeVal ((lookupKey src pf).getD .vnull) = none) →
      lookupKey (applyFieldMap src fm acc inds).1 k = lookupKey acc k := by
  induction fm with
  | nil => intro acc inds k _; rfl
  | cons a fm ih =>
    intro acc inds k hnone
    rw [applyFieldMap_cons]
    cases hs : storeVal ((lookupKey src a.2).getD .vnull) with
    | none =>
      exact ih _ _ _ (fun pf hm => hnone pf (List.mem_cons_of_mem _ hm))
    | some v0 =>
      have hk : k ≠ a.1 := by
        intro hk
        subst hk
        rw [hnone a.2 (List.mem_cons_self _ _)] at hs
        exact Option.noConfusion hs
      rw [ih _ _ _ (fun pf hm => hnone pf (List.mem_cons_of_mem _ hm)),
        lookup_setPair_ne _ _ _ _ hk]

/-! ## Helper lemmas: `storeVal` bounds -/

/-- `round2` always yields a multiple of `1/100`. -/
theorem round2_den (q : Rat) : (round2 q * 100).den = 1 := by
  have h : round2 q * 100 = ((round (q * 100) : Int) : Rat) := by
    rw [round2, div_mul_cancel₀]
    norm_num
  rw [h, Rat.den_intCast]

/-- `round2` of a value above `-99990` stays at or above `-99990`. -/
theorem round2_ge (q : Rat) (h : ¬ q ≤ -99990) : (-99990 : Rat) ≤ round2 q := by
  have h1 : (-9999000 : Rat) < q * 100 := by nlinarith [not_le.mp h]
  have h2 : (q * 100 + 1 / 2 : Rat) - 1 < (⌊q * 100 + 1 / 2⌋ : Rat) :=
    Int.sub_one_lt_floor _
  have h3 : (-9999001 : Rat) < (⌊q * 100 + 1 / 2⌋ : Rat) := by linarith
  have h4 : (-9999001 : Int) < ⌊q * 100 + 1 / 2⌋ := by exact_mod_cast h3
  have h5 : (-9999000 : Int) ≤ ⌊q * 100 + 1 / 2⌋ := by omega
  have h6 : (-9999000 : Rat) ≤ ((round (q * 100) : Int) : Rat) := by
    rw [round_eq]
    exact_mod_cast h5
  rw [round2]
  linarith

/-- A stored value is never a number at or below `-99999`. -/
theorem storeVal_not_sentinel (raw v : Val) (h : storeVal raw = some v) :
    vnumLE v (-99999) = false := by
  cases raw with
  | vnull => simp [storeVal, clean_value] at h
  | vstr s => simp [storeVal, clean_value] at h; simp [← h, vnumLE]
  | vint n =>
    by_cases hn : n ≤ -99990
    · simp [storeVal, clean_value, hn] at h
    · simp [storeVal, clean_value, hn] at h
      simp [← h, vnumLE]
      omega
  | vfloat q =>
    by_cases hq : q ≤ -99990
    · simp [storeVal, clean_value, hq] at h
    · simp [storeVal, clean_value, hq] at h
      have := round2_ge q hq
      simp [← h, vnumLE]
      linarith

/-- A stored float is always a multiple of `1/100`: it went through
`round(v, 2)`. -/
theorem storeVal_float (raw : Val) (q : Rat) (h : storeVal raw = some (.vfloat q)) :
    (q * 100).den = 1 := by
  cases raw with
  | vnull => simp [storeVal, clean_value] at h
  | vstr s => simp [storeVal, clean_value] at h
  | vint n =>
    by_cases hn : n ≤ -99990 <;> simp [storeVal, clean_value, hn] at h
  | vfloat r =>
    by_cases hr : r ≤ -99990
    · simp [storeVal, clean_value, hr] at h
    · simp [storeVal, clean_value, hr] at h
      rw [← h]
      exact round2_den r

/-! ## Helper lemmas: the batch-merge fold -/

theorem mergeBatchProps_cons (rm : List (String × String)) (pv : String × Val)
    (row : List (String × Val)) (props : List (String × Val)) (inds : List String) :
    mergeBatchProps rm (pv :: row) props inds =
      (match lookupKey rm pv.1 with
       | some ak =>
         match storeVal pv.2 with
         | some v => mergeBatchProps rm row (setPair props ak v) (insertNew inds ak)
         | none => mergeBatchProps rm row props inds
       | none => mergeBatchProps rm row props inds) := by
  simp only [mergeBatchProps, List.foldl_cons]
  cases lookupKey rm pv.1 with
  | none => rfl
  | some ak => cases storeVal pv.2 <;> rfl

/-- The property-dict component of the batch fold does not depend on
the indicator accumulator. -/
theorem mergeBatchProps_fst (rm : List (String × String)) (row : List (String × Val)) :
    ∀ props inds inds2,
      (mergeBatchProps rm row props inds).1 = (mergeBatchProps rm row props inds2).1 := by
  induction row with
  | nil => intro props inds inds2; rfl
  | cons pv row ih =>
    intro props inds inds2
    rw [mergeBatchProps_cons, mergeBatchProps_cons]
    cases lookupKey rm pv.1 with
    | none => apply ih
    | some ak => cases storeVal pv.2 <;> apply ih

/-- Any binding of the batch fold's output dict either was already in
the input dict or is the stored value of one of the record's fields. -/
theorem mergeBatchProps_lookup (rm : List (String × String)) (row : List (String × Val)) :
    ∀ props inds k v, lookupKey (mergeBatchProps rm row props inds).1 k = some v →
      lookupKey props k = some v ∨
        ∃ pf, pf ∈ row ∧ lookupKey rm pf.1 = some k ∧ storeVal pf.2 = some v := by
  induction row with
  | nil => intro props inds k v h; exact Or.inl h
  | cons pv row ih =>
    intro props inds k v h
    rw [mergeBatchProps_cons] at h
    cases hr : lookupKey rm pv.1 with
    | none =>
      rw [hr] at h
      rcases ih _ _ _ _ h with h1 | ⟨pf, hm, hk, hst⟩
      · exact Or.inl h1
      · exact Or.inr ⟨pf, List.mem_cons_of_mem _ hm, hk, hst⟩
    | some ak =>
      rw [hr] at h
      cases hs : storeVal pv.2 with
      | none =>
        rw [hs] at h
        rcases ih _ _ _ _ h with h1 | ⟨pf, hm, hk, hst⟩
        · exact Or.inl h1
        · exact Or.inr ⟨pf, List.mem_cons_of_mem _ hm, hk, hst⟩
      | some v0 =>
        rw [hs] at h
        rcases ih _ _ _ _ h with h1 | ⟨pf, hm, hk, hst⟩
        · by_cases hkk : k = ak
          · subst hkk
            rw [lookup_setPair_self] at h1
            refine Or.inr ⟨pv, List.mem_cons_self _ _, hr, ?_⟩
            rw [hs, h1]
          · rw [lookup_setPair_ne _ _ _ _ hkk] at h1
            exact Or.inl h1
        · exact Or.inr ⟨pf, List.mem_cons_of_mem _ hm, hk, hst⟩

/-! ## Helper lemmas: the enrichment merge loops -/

theorem mergeStepY_feats (fm : List (String × String))
    (stats : List (Val × List (String × Val))) (idf : String)
    (st : MergeState) (f : Feature) :
    (mergeStepY fm stats idf st f).feats = st.feats ++ [mergeFeatureY fm stats idf f] := by
  unfold mergeStepY mergeFeatureY
  by_cases ht : truthy (getFid f.props idf)
  · simp only [ht, if_true]
    cases hl : lookupVal stats (getFid f.props idf) with
    | none => rfl
    | some row =>
      simp only []
      rw [applyFieldMap_fst row fm f.props st.inds []]
  · simp [ht]

theorem enrichMergeY_feats_aux (fm : List (String × String))
    (stats : List (Val × List (String × Val))) (idf : String) (feats : List Feature) :
    ∀ st : MergeState, (feats.foldl (mergeStepY fm stats idf) st).feats =
      st.feats ++ feats.map (mergeFeatureY fm stats idf) := by
  induction feats with
  | nil => intro st; simp
  | cons f feats ih =>
    intro st
    rw [List.foldl_cons, ih, mergeStepY_feats]
    simp

theorem enrichMergeY_feats (fm : List (String × String))
    (stats : List (Val × List (String × Val))) (idf : String) (feats : List Feature) :
    (enrichMergeY fm stats idf feats).feats = feats.map (mergeFeatureY fm stats idf) := by
  rw [enrichMergeY, enrichMergeY_feats_aux]
  rfl

theorem mergeStepY_enriched (fm : List (String × String))
    (stats : List (Val × List (String × Val))) (idf : String)
    (st : MergeState) (f : Feature) :
    (mergeStepY fm stats idf st f).enriched =
      st.enriched + (if isMatched stats idf f then 1 else 0) := by
  unfold mergeStepY isMatched
  by_cases ht : truthy (getFid f.props idf)
  · simp only [ht, if_true, Bool.true_and]
    cases hl : lookupVal stats (getFid f.props idf) with
    | none => simp [hl]
    | some row => simp [hl]
  · simp [ht]

theorem enrichMergeY_enriched_aux (fm : List (String × String))
    (stats : List (Val × List (String × Val))) (idf : String) (feats : List Feature) :
    ∀ st : MergeState, (feats.foldl (mergeStepY fm stats idf) st).enriched =
      st.enriched + countMatched stats idf feats := by
  induction feats with
  | nil => intro st; simp [countMatched]
  | cons f feats ih =>
    intro st
    rw [List.foldl_cons, ih, mergeStepY_enriched]
    by_cases hm : isMatched stats idf f <;>
      simp [countMatched, hm, List.filter_cons] <;> omega

theorem enrichMergeY_enriched (fm : List (String × String))
    (stats : List (Val × List (String × Val))) (idf : String) (feats : List Feature) :
    (enrichMergeY fm stats idf feats).enriched = countMatched stats idf feats := by
  rw [enrichMergeY, enrichMergeY_enriched_aux]
  simp

theorem mergeStepB_feats (rm : List (String × String))
    (stats : List (Val × List (String × Val))) (idf : String)
    (st : MergeState) (f : Feature) :
    (mergeStepB rm stats idf st f).feats = st.feats ++ [mergeFeatureB rm stats idf f] := by
  unfold mergeStepB mergeFeatureB
  by_cases ht : truthy (getFid f.props idf)
  · simp only [ht, if_true]
    cases hl : lookupVal stats (getFid f.props idf) with
    | none => rfl
    | some row =>
      simp only []
      rw [mergeBatchProps_fst rm row f.props st.inds []]
  · simp [ht]

theorem enrichMergeB_feats_aux (rm : List (String × String))
    (stats : List (Val × List (String × Val))) (idf : String) (feats : List Feature) :
    ∀ st : MergeState, (feats.foldl (mergeStepB rm stats idf) st).feats =
      st.feats ++ feats.map (mergeFeatureB rm stats idf) := by
  induction feats with
  | nil => intro st; simp
  | cons f feats ih =>
    intro st
    rw [List.foldl_cons, ih, mergeStepB_feats]
    simp

theorem enrichMergeB_feats (rm : List (String × String))
    (stats : List (Val × List (String × Val))) (idf : String) (feats : List Feature) :
    (enrichMergeB rm stats idf feats).feats = feats.map (mergeFeatureB rm stats idf) := by
  rw [enrichMergeB, enrichMergeB_feats_aux]
  rfl

theorem mergeStepB_enriched (rm : List (String × String))
    (stats : List (Val × List (String × Val))) (idf : String)
    (st : MergeState) (f : Feature) :
    (mergeStepB rm stats idf st f).enriched =
      st.enriched + (if isMatched stats idf f then 1 else 0) := by
  unfold mergeStepB isMatched
  by_cases ht : truthy (getFid f.props idf)
  · simp only [ht, if_true, Bool.true_and]
    cases hl : lookupVal stats (getFid f.props idf) with
    | none => simp [hl]
    | some row => simp [hl]
  · simp [ht]

theorem enrichMergeB_enriched_aux (rm : List (String × String))
    (stats : List (Val × List (String × Val))) (idf : String) (feats : List Feature) :
    ∀ st : MergeState, (feats.foldl (mergeStepB rm stats idf) st).enriched =
      st.enriched + countMatched stats idf feats := by
  induction feats with
  | nil => intro st; simp [countMatched]
  | cons f feats ih =>
    intro st
    rw [List.foldl_cons, ih, mergeStepB_enriched]
    by_cases hm : isMatched stats idf f <;>
      simp [countMatched, hm, List.filter_cons] <;> omega

theorem enrichMergeB_enriched (rm : List (String × String))
    (stats : List (Val × List (String × Val))) (idf : String) (feats : List Feature) :
    (enrichMergeB rm stats idf feats).enriched = countMatched stats idf feats := by
  rw [enrichMergeB, enrichMergeB_enriched_aux]
  simp

/-! ## Helper lemmas: flora/fauna and SQL merge loops preserve the
feature count -/

theorem floraStep_len (ffData : List (String × List (String × Option Int)))
    (nameField : String) (st : MergeState) (f : Feature) :
    (floraStep ffData nameField st f).feats.length = st.feats.length + 1 := by
  unfold floraStep
  by_cases hn : getNaam f.props nameField = ""
  · simp [hn]
  · simp only [hn, if_false]
    cases hl : lookupKey ffData (normalize_naam (getNaam f.props nameField)) with
    | none => simp
    | some row =>
      cases row with
      | nil => simp
      | cons kv r => simp

theorem floraMerge_len (ffData : List (String × List (String × Option Int)))
    (nameField : String) (feats : List Feature) :
    (floraMerge ffData nameField feats).feats.length = feats.length := by
  suffices h : ∀ st : MergeState,
      (feats.foldl (floraStep ffData nameField) st).feats.length =
        st.feats.length + feats.length by
    have := h ⟨[], 0, []⟩
    simpa [floraMerge] using this
  induction feats with
  | nil => intro st; simp
  | cons f feats ih =>
    intro st
    rw [List.foldl_cons, ih, floraStep_len]
    simp only [List.length_cons]
    omega

theorem sqlStep_len (bbg lbt : List ((String × Int) × List (String × Val)))
    (domBodem domLandbouw : Bool) (nearestPj : Option Int)
    (nameField : String) (yr : Int) (st : MergeState) (f : Feature) :
    (sqlStep bbg lbt domBodem domLandbouw nearestPj nameField yr st f).feats.length =
      st.feats.length + 1 := by
  unfold sqlStep
  by_cases hn : getNaam f.props nameField = ""
  · simp [hn]
  · simp [hn]

theorem sqlMerge_len (bbg lbt : List ((String × Int) × List (String × Val)))
    (domBodem domLandbouw : Bool) (nearestPj : Option Int)
    (nameField : String) (yr : Int) (feats : List Feature) :
    (sqlMerge bbg lbt domBodem domLandbouw nearestPj nameField yr feats).feats.length =
      feats.length := by
  suffices h : ∀ st : MergeState,
      (feats.foldl (sqlStep bbg lbt domBodem domLandbouw nearestPj nameField yr) st).feats.length =
        st.feats.length + feats.length by
    have := h ⟨[], 0, []⟩
    simpa [sqlMerge] using this
  induction feats with
  | nil => intro st; simp
  | cons f feats ih =>
    intro st
    rw [List.foldl_cons, ih, sqlStep_len]
    simp only [List.length_cons]
    omega

/-! ## Helper lemmas: the flora/fauna per-key fold -/

/-- The property-dict component of the flora/fauna per-key fold equals
the bare `floraPropsFold`, whatever the indicator set and flag. -/
theorem floraFold_fst (row : List (String × Option Int)) :
    ∀ st : List (String × Val) × List String × Bool,
      (row.foldl (fun p kv =>
        match kv.2 with
        | some n => if 0 < n then (setPair p.1 kv.1 (.vint n), insertNew p.2.1 kv.1, true)
          else p
        | none => p) st).1 = floraPropsFold row st.1 := by
  induction row with
  | nil => intro st; rfl
  | cons kv row ih =>
    obtain ⟨k1, v1⟩ := kv
    intro st
    rw [List.foldl_cons, floraPropsFold, List.foldl_cons]
    cases v1 with
    | none => exact ih st
    | some n =>
      by_cases hn : 0 < n
      · simp only [hn, if_true]
        exact ih _
      · simp only [hn, if_false]
        exact ih st

theorem floraMergeProps_fst (row : List (String × Option Int))
    (props : List (String × Val)) (inds : List String) :
    (floraMergeProps row props inds).1 = floraPropsFold row props :=
  floraFold_fst row (props, inds, false)

/-- Non-positive entries of the row contribute nothing: folding the
row equals folding only its positive entries. -/
theorem floraPropsFold_filter (row : List (String × Option Int)) :
    ∀ props, floraPropsFold row props =
      floraPropsFold (row.filter (fun kv => ffPos kv.2)) props := by
  induction row with
  | nil => intro props; rfl
  | cons kv row ih =>
    obtain ⟨k1, v1⟩ := kv
    intro props
    rw [floraPropsFold, List.foldl_cons, List.filter_cons]
    cases v1 with
    | none =>
      simp only [ffPos, Bool.false_eq_true, if_false]
      exact ih props
    | some n =>
      by_cases hn : 0 < n
      · have hp : ffPos (some n) = true := by simp [ffPos, hn]
        simp only [hp, if_true, hn]
        rw [floraPropsFold, List.foldl_cons]
        simp only [hn, if_true]
        exact ih _
      · have hp : ffPos (some n) = false := by simp [ffPos, hn]
        simp only [hp, Bool.false_eq_true, if_false, hn]
        exact ih props

/-- A key all of whose row entries are non-positive keeps its previous
binding. -/
theorem floraPropsFold_lookup (row : List (String × Option Int)) (k : String) :
    ∀ props, (∀ p ∈ row, p.1 = k → ffPos p.2 = false) →
      lookupKey (floraPropsFold row props) k = lookupKey props k := by
  induction row with
  | nil => intro props _; rfl
  | cons kv row ih =>
    obtain ⟨k1, v1⟩ := kv
    intro props hz
    rw [floraPropsFold, List.foldl_cons]
    have hz2 : ∀ p ∈ row, p.1 = k → ffPos p.2 = false := by
      intro p hm hk
      exact hz p (List.mem_cons_of_mem _ hm) hk
    cases v1 with
    | none => exact ih props hz2
    | some n =>
      by_cases hn : 0 < n
      · have hk : k1 ≠ k := by
          intro hk
          have := hz (k1, some n) (List.mem_cons_self _ _) hk
          simp [ffPos, hn] at this
        simp only [hn, if_true]
        have h2 := ih (setPair props k1 (Val.vint n)) hz2
        have h3 := lookup_setPair_ne props k1 k (Val.vint n) (fun hh => hk hh.symm)
        exact h2.trans h3
      · simp only [hn, if_false]
        exact ih props hz2

/-! ## Helper lemmas: coordinate rounding precision -/

/-- `round5` always yields a multiple of `1/100000`: rounding it again
at the fifth decimal changes nothing. -/
theorem round5_fix (q : Rat) :
    ((round (round5 q * 100000) : Int) : Rat) = round5 q * 100000 := by
  have h : round5 q * 100000 = ((round (q * 100000) : Int) : Rat) := by
    rw [round5, div_mul_cancel₀]
    norm_num
  rw [h, round_intCast]

theorem prec5List_map_roundLeaf (l : List CoordTree) (h : allNum l = true) :
    prec5List (l.map roundLeaf) = true := by
  induction l with
  | nil => rfl
  | cons t ts ih =>
    simp only [allNum, List.all_cons, Bool.and_eq_true] at h
    cases t with
    | num q =>
      simp only [List.map_cons, roundLeaf, prec5List, Bool.and_eq_true]
      refine ⟨by simp [prec5, round5_fix q], ih (by simpa [allNum] using h.2)⟩
    | arr m => simp [isNumC] at h

/-- Rounding a well-formed geometry bounds every coordinate to 5
decimal places. -/
theorem round_coords_prec5 (t : CoordTree) (h : wfTree t = true) :
    prec5 (round_coords t) = true := by
  refine @CoordTree.rec (fun t => wfTree t = true → prec5 (round_coords t) = true)
    (fun l => wfList l = true → prec5List (roundCoordsList l) = true)
    ?_ ?_ ?_ ?_ t h
  · intro q hq
    simp [wfTree] at hq
  · intro l ih hl
    simp only [wfTree, Bool.or_eq_true] at hl
    by_cases hh : headNum l = true
    · have hall : allNum l = true := by
        rcases hl with hl | hl
        · exact hl
        · cases l with
          | nil => rfl
          | cons t0 ts =>
            cases t0 with
            | num q => simp [wfList, wfTree] at hl
            | arr m => simp [headNum, isNumC] at hh
      simp only [round_coords, hh, if_true, prec5]
      exact prec5List_map_roundLeaf l hall
    · have hwl : wfList l = true := by
        rcases hl with hl | hl
        · cases l with
          | nil => rfl
          | cons t0 ts =>
            cases t0 with
            | num q => simp [headNum, isNumC] at hh
            | arr m => simp [allNum, isNumC] at hl
        · exact hl
      simp only [round_coords, hh, if_false, prec5]
      exact ih hwl
  · intro _
    rfl
  · intro t0 ts ih1 ih2 hl
    simp only [wfList, Bool.and_eq_true] at hl
    simp only [roundCoordsList, prec5List, Bool.and_eq_true]
    exact ⟨ih1 hl.1, ih2 hl.2⟩

/-! ## Helper lemmas: the resolver fold -/

/-- The resolver fold never touches a key that is not in the table. -/
theorem resolve_fold_untouched (avail : List String) (table : List (String × List String)) :
    ∀ racc k, k ∉ table.map Prod.fst →
      lookupKey (table.foldl (fun resolved p =>
        match resolveKey (lowerMapOf avail) avail p.2 with
        | some r => setPair resolved p.1 r
        | none => resolved) racc) k = lookupKey racc k := by
  induction table with
  | nil => intro racc k _; rfl
  | cons p table ih =>
    intro racc k hk
    simp only [List.map_cons, List.mem_cons] at hk
    push_neg at hk
    rw [List.foldl_cons]
    cases hr : resolveKey (lowerMapOf avail) avail p.2 with
    | none => exact ih _ _ hk.2
    | some r =>
      have h2 := ih (setPair racc p.1 r) k hk.2
      have h3 := lookup_setPair_ne racc p.1 k r hk.1
      exact h2.trans h3

/-- Per-key characterization of the resolver fold: with distinct table
keys, the final binding of key `k` is exactly `resolveKey` of its
candidate list, falling back to the initial accumulator when no
candidate matches. -/
theorem resolve_fold_char (avail : List String) (table : List (String × List String)) :
    ∀ racc k cands, (table.map Prod.fst).Nodup → lookupKey table k = some cands →
      lookupKey (table.foldl (fun resolved p =>
        match resolveKey (lowerMapOf avail) avail p.2 with
        | some r => setPair resolved p.1 r
        | none => resolved) racc) k =
        (match resolveKey (lowerMapOf avail) avail cands with
         | some r => some r
         | none => lookupKey racc k) := by
  induction table with
  | nil => intro racc k cands _ h; exact absurd h (by simp [lookupKey])
  | cons p table ih =>
    intro racc k cands hnd h
    simp only [List.map_cons, List.nodup_cons] at hnd
    rw [List.foldl_cons]
    by_cases hp : p.1 = k
    · have hc : cands = p.2 := by
        rw [lookupKey, if_pos hp] at h
        exact (Option.some_inj.mp h).symm
      subst hc
      have hnot : k ∉ table.map Prod.fst := by rw [← hp]; exact hnd.1
      cases hr : resolveKey (lowerMapOf avail) avail p.2 with
      | none => exact resolve_fold_untouched avail table racc k hnot
      | some r =>
        have h2 := resolve_fold_untouched avail table (setPair racc p.1 r) k hnot
        exact h2.trans (hp ▸ lookup_setPair_self racc p.1 r)
    · have ht : lookupKey table k = some cands := by
        rw [lookupKey, if_neg hp] at h
        exact h
      cases hr : resolveKey (lowerMapOf avail) avail p.2 with
      | none => exact ih _ _ _ hnd.2 ht
      | some r =>
        have h2 := ih (setPair racc p.1 r) k cands hnd.2 ht
        cases hc : resolveKey (lowerMapOf avail) avail cands with
        | some r2 =>
          rw [hc] at h2
          exact h2
        | none =>
          rw [hc] at h2
          exact h2.trans (lookup_setPair_ne racc p.1 k r (fun hh => hp hh.symm))

/-! ## Helper lemmas: the admin-field copy -/

/-- The admin-field loop only binds admin-field keys. -/
theorem buildAdmin_not_mem (rawProps : List (String × Val)) (adminFields : List String)
    (ak : String) (h : adminFields.contains ak = false) :
    lookupKey (buildAdmin rawProps adminFields) ak = none := by
  have hmem : ak ∉ adminFields := by simpa using h
  suffices hgen : ∀ c : List (String × Val), lookupKey c ak = none →
      lookupKey (adminFields.foldl (fun c af =>
        match lookupKey rawProps af with
        | some v => if v = .vnull then c else setPair c af v
        | none => c) c) ak = none by
    exact hgen [] rfl
  clear h
  induction adminFields with
  | nil => intro c hc; exact hc
  | cons af adminFields ih =>
    simp only [List.mem_cons] at hmem
    push_neg at hmem
    intro c hc
    rw [List.foldl_cons]
    refine ih hmem.2 _ ?_
    cases hl : lookupKey rawProps af with
    | none => exact hc
    | some v =>
      simp only []
      by_cases hv : v = Val.vnull
      · simp [hv, hc]
      · rw [if_neg hv, lookup_setPair_ne _ _ _ _ hmem.1]
        exact hc

/-! ## Claim theorems -/

/-- C2: for the paginated fetcher with page ceiling 1000, a remote
collection of exactly 2500 records (split here as `a ++ b ++ c` with
1000, 1000 and 500 records) is fetched in exactly 3 page requests at
start offsets 0, 1000 and 2000, and the concatenated result is exactly
the remote collection: 2500 records, none skipped, none duplicated
across page boundaries.  The loop's stopping rules (empty page, page
shorter than the ceiling, running total reaching the matched count) are
the three guards of `downloadFeaturesAux`. -/
theorem claim_C2 {α : Type} (a b c : List α)
    (ha : a.length = 1000) (hb : b.length = 1000) (hc : c.length = 500) :
    download_features (a ++ b ++ c) = ([0, 1000, 2000], a ++ b ++ c) ∧
      (download_features (a ++ b ++ c)).2.length = 2500 := by
  have hR : (a ++ b ++ c).length = 2500 := by
    simp [ha, hb, hc]
  have hp0 : wfsPage (a ++ b ++ c) 0 = a := by
    simp only [wfsPage, PAGE_SIZE, List.drop_zero, List.append_assoc]
    rw [← ha, List.take_left]
  have hp1 : wfsPage (a ++ b ++ c) 1000 = b := by
    simp only [wfsPage, PAGE_SIZE, List.append_assoc]
    rw [← ha, List.drop_left, ha, ← hb, List.take_left]
  have hp2 : wfsPage (a ++ b ++ c) 2000 = c := by
    simp only [wfsPage, PAGE_SIZE]
    have hab : (a ++ b).length = 2000 := by simp [ha, hb]
    rw [← hab, List.drop_left]
    exact List.take_of_length_le (by rw [hc]; norm_num)
  have main : download_features (a ++ b ++ c) = ([0, 1000, 2000], a ++ b ++ c) := by
    rw [download_features, hR]
    rw [downloadFeaturesAux_succ, hp0]
    rw [if_neg (by rw [ha]; norm_num)]
    rw [if_neg (by rw [hR]; simp only [List.nil_append, ha]; norm_num)]
    rw [if_neg (by rw [ha]; norm_num [PAGE_SIZE])]
    rw [show (0 + a.length) = 1000 by rw [ha], List.nil_append, List.nil_append]
    rw [show (2500 : Nat) = 2499 + 1 from rfl, downloadFeaturesAux_succ, hp1]
    rw [if_neg (by rw [hb]; norm_num)]
    rw [if_neg (by rw [hR]; simp only [List.length_append, ha, hb]; norm_num)]
    rw [if_neg (by rw [hb]; norm_num [PAGE_SIZE])]
    rw [show (1000 + b.length) = 2000 by rw [hb]]
    rw [show ([0] ++ [1000] : List Nat) = [0, 1000] from rfl]
    rw [show (2499 : Nat) = 2498 + 1 from rfl, downloadFeaturesAux_succ, hp2]
    rw [if_neg (by rw [hc]; norm_num)]
    rw [if_pos ⟨by rw [hR]; norm_num, le_refl _⟩]
    rfl
  exact ⟨main, by rw [main, hR]⟩

/-- Witness for C2 at a concrete 2500-record remote collection. -/
theorem claim_C2_witness :
    (List.range 1000).length = 1000 ∧ (List.range' 1000 1000).length = 1000 ∧
      (List.range' 2000 500).length = 500 ∧
      (download_features (List.range 1000 ++ List.range' 1000 1000 ++ List.range' 2000 500) =
        ([0, 1000, 2000], List.range 1000 ++ List.range' 1000 1000 ++ List.range' 2000 500) ∧
       (download_features
          (List.range 1000 ++ List.range' 1000 1000 ++ List.range' 2000 500)).2.length = 2500) :=
  ⟨by simp, by simp, by simp,
    claim_C2 (List.range 1000) (List.range' 1000 1000) (List.range' 2000 500)
      (by simp) (by simp) (by simp)⟩

/-- C1: an enrichment merge pass (`enrich_year` step 5 and the
`enrich_batch` step-5 merge) never adds or removes a feature: the
result is the positionwise merge of the input features, every merged
feature keeps its geometry unchanged, and a feature whose id is falsy
or has no matching fetched record is kept exactly as it was,
properties included. -/
theorem claim_C1 (fm rm : List (String × String))
    (stats : List (Val × List (String × Val))) (idf : String)
    (feats : List Feature) (i j : Nat) (f g : Feature)
    (hi : feats[i]? = some f) (hj : feats[j]? = some g)
    (hg : isMatched stats idf g = false) :
    (enrichMergeY fm stats idf feats).feats.length = feats.length ∧
    (enrichMergeY fm stats idf feats).feats[i]? = some (mergeFeatureY fm stats idf f) ∧
    (mergeFeatureY fm stats idf f).geom = f.geom ∧
    mergeFeatureY fm stats idf g = g ∧
    (enrichMergeB rm stats idf feats).feats.length = feats.length ∧
    (enrichMergeB rm stats idf feats).feats[j]? = some (mergeFeatureB rm stats idf g) ∧
    (mergeFeatureB rm stats idf f).geom = f.geom ∧
    mergeFeatureB rm stats idf g = g := by
  have hyg : (mergeFeatureY fm stats idf f).geom = f.geom := by
    unfold mergeFeatureY
    by_cases ht : truthy (getFid f.props idf)
    · simp only [ht, if_true]
      cases lookupVal stats (getFid f.props idf) <;> rfl
    · simp [ht]
  have hbg : (mergeFeatureB rm stats idf f).geom = f.geom := by
    unfold mergeFeatureB
    by_cases ht : truthy (getFid f.props idf)
    · simp only [ht, if_true]
      cases lookupVal stats (getFid f.props idf) <;> rfl
    · simp [ht]
  have hyu : mergeFeatureY fm stats idf g = g := by
    unfold mergeFeatureY
    unfold isMatched at hg
    by_cases ht : truthy (getFid g.props idf)
    · simp only [ht, Bool.true_and] at hg
      cases hl : lookupVal stats (getFid g.props idf) with
      | none => simp [ht, hl]
      | some row => rw [hl] at hg; simp at hg
    · simp [ht]
  have hbu : mergeFeatureB rm stats idf g = g := by
    unfold mergeFeatureB
    unfold isMatched at hg
    by_cases ht : truthy (getFid g.props idf)
    · simp only [ht, Bool.true_and] at hg
      cases hl : lookupVal stats (getFid g.props idf) with
      | none => simp [ht, hl]
      | some row => rw [hl] at hg; simp at hg
    · simp [ht]
  refine ⟨?_, ?_, hyg, hyu, ?_, ?_, hbg, hbu⟩
  · rw [enrichMergeY_feats]
    simp
  · rw [enrichMergeY_feats, List.getElem?_map, hi]
    rfl
  · rw [enrichMergeB_feats]
    simp
  · rw [enrichMergeB_feats, List.getElem?_map, hj]
    rfl

/-- Witness for C1: two features, one with a matching code, one
without; the unmatched one is returned untouched. -/
theorem claim_C1_witness :
    ([⟨[("gemeentecode", Val.vstr "GM1")], CoordTree.arr []⟩,
      ⟨[("gemeentecode", Val.vstr "GM2")], CoordTree.arr []⟩] : List Feature)[0]? =
        some ⟨[("gemeentecode", Val.vstr "GM1")], CoordTree.arr []⟩ ∧
    ([⟨[("gemeentecode", Val.vstr "GM1")], CoordTree.arr []⟩,
      ⟨[("gemeentecode", Val.vstr "GM2")], CoordTree.arr []⟩] : List Feature)[1]? =
        some ⟨[("gemeentecode", Val.vstr "GM2")], CoordTree.arr []⟩ ∧
    isMatched [(Val.vstr "GM1", [("aantalInwoners", Val.vint 5)])] "gemeentecode"
      ⟨[("gemeentecode", Val.vstr "GM2")], CoordTree.arr []⟩ = false ∧
    ((enrichMergeY [("aantal_inwoners", "aantalInwoners")]
        [(Val.vstr "GM1", [("aantalInwoners", Val.vint 5)])] "gemeentecode"
        [⟨[("gemeentecode", Val.vstr "GM1")], CoordTree.arr []⟩,
         ⟨[("gemeentecode", Val.vstr "GM2")], CoordTree.arr []⟩]).feats.length = 2 ∧
      mergeFeatureY [("aantal_inwoners", "aantalInwoners")]
        [(Val.vstr "GM1", [("aantalInwoners", Val.vint 5)])] "gemeentecode"
        ⟨[("gemeentecode", Val.vstr "GM2")], CoordTree.arr []⟩ =
        ⟨[("gemeentecode", Val.vstr "GM2")], CoordTree.arr []⟩) := by
  have h := claim_C1 [("aantal_inwoners", "aantalInwoners")]
    [("aantal_inwoners", "aantalInwoners")]
    [(Val.vstr "GM1", [("aantalInwoners", Val.vint 5)])] "gemeentecode"
    [⟨[("gemeentecode", Val.vstr "GM1")], CoordTree.arr []⟩,
     ⟨[("gemeentecode", Val.vstr "GM2")], CoordTree.arr []⟩] 0 1
    ⟨[("gemeentecode", Val.vstr "GM1")], CoordTree.arr []⟩
    ⟨[("gemeentecode", Val.vstr "GM2")], CoordTree.arr []⟩
    rfl rfl rfl
  exact ⟨rfl, rfl, rfl, h.1, h.2.2.2.1⟩

/-- C3 counterexample: the resolver does NOT try the three tiers per
candidate.  With an available set where the first candidate of
`gem_inkomen_inwoner` has only a substring match while the second has
an exact match, the code's two-phase resolver picks the second
candidate's exact match, whereas the claimed per-candidate algorithm
would pick the first candidate's substring match. -/
theorem claim_C3_counterexample :
    resolve_fields ["XgemiddeldInkomenPerInwonerX", "gemiddeldInkomenPerInkomensontvanger"] ≠
      resolve_fields_spec PDOK_FIELDS
        ["XgemiddeldInkomenPerInwonerX", "gemiddeldInkomenPerInkomensontvanger"] := by
  decide

/-- C3 amended: for each logical key the resolver first tries every
candidate in order for an exact match, else a case-insensitive exact
match; only when all candidates fail both does it retry the candidates
in order accepting a case-insensitive substring match, the first
success winning; a key with no match on either pass is simply omitted
from the resolved mapping, never an error.  Formally: with distinct
table keys, the resolved binding of each key is exactly `resolveKey`
(the two-phase per-key resolution) of its candidate list. -/
theorem claim_C3 (table : List (String × List String)) (available : List String)
    (k : String) (cands : List String)
    (hnd : (table.map Prod.fst).Nodup) (h : lookupKey table k = some cands) :
    lookupKey (resolve_fields_t table available) k =
      (match resolveKey (lowerMapOf available) available cands with
       | some r => some r
       | none => none) := by
  have hc := resolve_fold_char available table [] k cands hnd h
  rw [resolve_fields_t]
  rw [hc]
  cases resolveKey (lowerMapOf available) available cands <;> rfl

/-- Witness for C3 at the concrete `PDOK_FIELDS` table. -/
theorem claim_C3_witness :
    (PDOK_FIELDS.map Prod.fst).Nodup ∧
    lookupKey PDOK_FIELDS "gem_inkomen_inwoner" =
      some ["gemiddeldInkomenPerInwoner", "gemiddeldInkomenPerInkomensontvanger"] ∧
    lookupKey (resolve_fields_t PDOK_FIELDS
        ["XgemiddeldInkomenPerInwonerX", "gemiddeldInkomenPerInkomensontvanger"])
        "gem_inkomen_inwoner" =
      (match resolveKey
          (lowerMapOf ["XgemiddeldInkomenPerInwonerX", "gemiddeldInkomenPerInkomensontvanger"])
          ["XgemiddeldInkomenPerInwonerX", "gemiddeldInkomenPerInkomensontvanger"]
          ["gemiddeldInkomenPerInwoner", "gemiddeldInkomenPerInkomensontvanger"] with
       | some r => some r
       | none => none) :=
  ⟨by decide, by decide,
    claim_C3 PDOK_FIELDS
      ["XgemiddeldInkomenPerInwonerX", "gemiddeldInkomenPerInkomensontvanger"]
      "gem_inkomen_inwoner"
      ["gemiddeldInkomenPerInwoner", "gemiddeldInkomenPerInkomensontvanger"]
      (by decide) (by decide)⟩

/-- C4: missing-value filtering in the build.  For a non-admin
(indicator) key whose every resolved field value cleans to missing
(which is the case for any numeric value at or below `-99990`, hence
for any value `≤ -99999`), the key is absent from the built property
dict; and any value the build does store at a non-admin key is never a
number at or below the claim's sentinel example `-99999`. -/
theorem claim_C4 (adminFields : List String) (fm : List (String × String))
    (rawProps : List (String × Val)) (inds : List String) (ak ak2 : String) (v2 : Val)
    (h1 : adminFields.contains ak = false)
    (h2 : ∀ p ∈ fm, p.1 = ak → clean_value ((lookupKey rawProps p.2).getD .vnull) = none)
    (h3 : adminFields.contains ak2 = false)
    (h4 : lookupKey (buildProps adminFields fm rawProps inds).1 ak2 = some v2) :
    lookupKey (buildProps adminFields fm rawProps inds).1 ak = none ∧
      vnumLE v2 (-99999) = false := by
  constructor
  · rw [buildProps, applyFieldMap_skip]
    · exact buildAdmin_not_mem rawProps adminFields ak h1
    · intro pf hm
      rw [storeVal, h2 (ak, pf) hm rfl]
  · rw [buildProps] at h4
    rcases applyFieldMap_lookup rawProps fm _ _ _ _ h4 with h5 | ⟨pf, _, hst⟩
    · rw [buildAdmin_not_mem rawProps adminFields ak2 h3] at h5
      exact Option.noConfusion h5
    · exact storeVal_not_sentinel _ _ hst

/-- Witness for C4: a raw feature whose indicator field carries the
sentinel `-99999` loses that key, while a stored value is not at or
below the sentinel. -/
theorem claim_C4_witness :
    (["gemeentecode", "gemeentenaam"].contains "aantal_inwoners" = false) ∧
    (∀ p ∈ ([("aantal_inwoners", "aantalInwoners"), ("mannen", "mannen")] :
          List (String × String)), p.1 = "aantal_inwoners" →
      clean_value ((lookupKey [("gemeentecode", Val.vstr "GM1"),
        ("aantalInwoners", Val.vint (-99999)), ("mannen", Val.vint 42)] p.2).getD .vnull) =
        none) ∧
    (["gemeentecode", "gemeentenaam"].contains "mannen" = false) ∧
    lookupKey (buildProps ["gemeentecode", "gemeentenaam"]
        [("aantal_inwoners", "aantalInwoners"), ("mannen", "mannen")]
        [("gemeentecode", Val.vstr "GM1"), ("aantalInwoners", Val.vint (-99999)),
         ("mannen", Val.vint 42)] []).1 "mannen" = some (Val.vint 42) ∧
    (lookupKey (buildProps ["gemeentecode", "gemeentenaam"]
        [("aantal_inwoners", "aantalInwoners"), ("mannen", "mannen")]
        [("gemeentecode", Val.vstr "GM1"), ("aantalInwoners", Val.vint (-99999)),
         ("mannen", Val.vint 42)] []).1 "aantal_inwoners" = none ∧
      vnumLE (Val.vint 42) (-99999) = false) :=
  ⟨by decide, by decide, by decide, by decide,
    claim_C4 ["gemeentecode", "gemeentenaam"]
      [("aantal_inwoners", "aantalInwoners"), ("mannen", "mannen")]
      [("gemeentecode", Val.vstr "GM1"), ("aantalInwoners", Val.vint (-99999)),
       ("mannen", Val.vint 42)] [] "aantal_inwoners" "mannen" (Val.vint 42)
      (by decide) (by decide) (by decide) (by decide)⟩

/-- C9: every float value that the indicator-storing loops of the
build (`buildProps`, non-admin keys), of `enrich_year`
(`mergeFeatureY`) and of `enrich_batch` (`mergeFeatureB`) newly store
into a feature's properties is a multiple of 1/100, i.e. has been
rounded to exactly 2 decimal places by `round(v, 2)`. -/
theorem claim_C9 (adminFields : List String) (fm : List (String × String))
    (rawProps : List (String × Val)) (inds : List String) (ak : String) (q : Rat)
    (stats : List (Val × List (String × Val))) (idf : String) (f f2 : Feature)
    (rm : List (String × String)) (k k2 : String) (q1 q2 : Rat)
    (h1 : adminFields.contains ak = false)
    (h2 : lookupKey (buildProps adminFields fm rawProps inds).1 ak = some (.vfloat q))
    (h3 : lookupKey (mergeFeatureY fm stats idf f).props k = some (.vfloat q1))
    (h4 : lookupKey f.props k ≠ some (.vfloat q1))
    (h5 : lookupKey (mergeFeatureB rm stats idf f2).props k2 = some (.vfloat q2))
    (h6 : lookupKey f2.props k2 ≠ some (.vfloat q2)) :
    (q * 100).den = 1 ∧ (q1 * 100).den = 1 ∧ (q2 * 100).den = 1 := by
  refine ⟨?_, ?_, ?_⟩
  · rw [buildProps] at h2
    rcases applyFieldMap_lookup rawProps fm _ _ _ _ h2 with h7 | ⟨pf, _, hst⟩
    · rw [buildAdmin_not_mem rawProps adminFields ak h1] at h7
      exact Option.noConfusion h7
    · exact storeVal_float _ _ hst
  · unfold mergeFeatureY at h3
    by_cases ht : truthy (getFid f.props idf)
    · rw [if_pos ht] at h3
      cases hl : lookupVal stats (getFid f.props idf) with
      | none =>
        rw [hl] at h3
        exact absurd h3 h4
      | some row =>
        rw [hl] at h3
        rcases applyFieldMap_lookup row fm _ _ _ _ h3 with h7 | ⟨pf, _, hst⟩
        · exact absurd h7 h4
        · exact storeVal_float _ _ hst
    · rw [if_neg ht] at h3
      exact absurd h3 h4
  · unfold mergeFeatureB at h5
    by_cases ht : truthy (getFid f2.props idf)
    · rw [if_pos ht] at h5
      cases hl : lookupVal stats (getFid f2.props idf) with
      | none =>
        rw [hl] at h5
        exact absurd h5 h6
      | some row =>
        rw [hl] at h5
        rcases mergeBatchProps_lookup rm row _ _ _ _ h5 with h7 | ⟨pf, _, _, hst⟩
        · exact absurd h7 h6
        · exact storeVal_float _ _ hst
    · rw [if_neg ht] at h5
      exact absurd h5 h6

/-- Witness for C9: a raw float `3.14159` is stored as `3.14` by the
build, by the `enrich_year` merge at a matched feature, and by the
`enrich_batch` merge. -/
theorem claim_C9_witness :
    (["gemeentecode"].contains "gem_woz_waarde" = false) ∧
    lookupKey (buildProps ["gemeentecode"] [("gem_woz_waarde", "gemiddeldeWoningwaarde")]
        [("gemeentecode", Val.vstr "GM1"),
         ("gemiddeldeWoningwaarde", Val.vfloat (314159/100000))] []).1 "gem_woz_waarde" =
      some (.vfloat (157/50)) ∧
    lookupKey (mergeFeatureY [("gem_woz_waarde", "gemiddeldeWoningwaarde")]
        [(Val.vstr "GM1", [("gemiddeldeWoningwaarde", Val.vfloat (314159/100000))])]
        "gemeentecode" ⟨[("gemeentecode", Val.vstr "GM1")], CoordTree.arr []⟩).props
        "gem_woz_waarde" = some (.vfloat (157/50)) ∧
    lookupKey ([("gemeentecode", Val.vstr "GM1")] : List (String × Val)) "gem_woz_waarde" ≠
      some (Val.vfloat (157/50)) ∧
    lookupKey (mergeFeatureB [("gemiddeldeWoningwaarde", "gem_woz_waarde")]
        [(Val.vstr "GM1", [("gemiddeldeWoningwaarde", Val.vfloat (314159/100000))])]
        "gemeentecode" ⟨[("gemeentecode", Val.vstr "GM1")], CoordTree.arr []⟩).props
        "gem_woz_waarde" = some (.vfloat (157/50)) ∧
    (((157 : Rat)/50 * 100).den = 1 ∧ ((157 : Rat)/50 * 100).den = 1 ∧
      ((157 : Rat)/50 * 100).den = 1) := by
  have hc : (["gemeentecode"].contains "gem_woz_waarde" = false) := by decide
  have hb : lookupKey (buildProps ["gemeentecode"] [("gem_woz_waarde", "gemiddeldeWoningwaarde")]
      [("gemeentecode", Val.vstr "GM1"),
       ("gemiddeldeWoningwaarde", Val.vfloat (314159/100000))] []).1 "gem_woz_waarde" =
      some (.vfloat (157/50)) := by
    simp [buildProps, applyFieldMap, buildAdmin, lookupKey, setPair, storeVal, clean_value,
      round2, insertNew, round_eq]
    norm_num
    simp [lookupKey]
  have hy : lookupKey (mergeFeatureY [("gem_woz_waarde", "gemiddeldeWoningwaarde")]
      [(Val.vstr "GM1", [("gemiddeldeWoningwaarde", Val.vfloat (314159/100000))])]
      "gemeentecode" ⟨[("gemeentecode", Val.vstr "GM1")], CoordTree.arr []⟩).props
      "gem_woz_waarde" = some (.vfloat (157/50)) := by
    simp [mergeFeatureY, getFid, truthy, lookupVal, applyFieldMap, lookupKey, setPair,
      storeVal, clean_value, round2, insertNew, round_eq]
    norm_num
    simp [lookupKey]
  have hne : lookupKey ([("gemeentecode", Val.vstr "GM1")] : List (String × Val))
      "gem_woz_waarde" ≠ some (Val.vfloat (157/50)) := by
    simp [lookupKey]
  have hbb : lookupKey (mergeFeatureB [("gemiddeldeWoningwaarde", "gem_woz_waarde")]
      [(Val.vstr "GM1", [("gemiddeldeWoningwaarde", Val.vfloat (314159/100000))])]
      "gemeentecode" ⟨[("gemeentecode", Val.vstr "GM1")], CoordTree.arr []⟩).props
      "gem_woz_waarde" = some (.vfloat (157/50)) := by
    simp [mergeFeatureB, getFid, truthy, lookupVal, mergeBatchProps, lookupKey, setPair,
      storeVal, clean_value, round2, insertNew, round_eq]
    norm_num
    simp [lookupKey]
  refine ⟨hc, hb, hy, hne, hbb, ?_⟩
  exact claim_C9 ["gemeentecode"] [("gem_woz_waarde", "gemiddeldeWoningwaarde")]
    [("gemeentecode", Val.vstr "GM1"),
     ("gemiddeldeWoningwaarde", Val.vfloat (314159/100000))] [] "gem_woz_waarde" (157/50)
    [(Val.vstr "GM1", [("gemiddeldeWoningwaarde", Val.vfloat (314159/100000))])]
    "gemeentecode" ⟨[("gemeentecode", Val.vstr "GM1")], CoordTree.arr []⟩
    ⟨[("gemeentecode", Val.vstr "GM1")], CoordTree.arr []⟩
    [("gemiddeldeWoningwaarde", "gem_woz_waarde")] "gem_woz_waarde" "gem_woz_waarde"
    (157/50) (157/50) hc hb hy hne hbb hne

/-- C5 counterexample: when simplification returns an empty geometry,
`simplify_geometry` returns the original geometry dict UNROUNDED (the
`if simplified.is_empty: return geom_dict` branch skips
`round_coords`), so the output is not the rounded original and can
carry more than 5 decimal places (here `0.123456`). -/
theorem claim_C5_counterexample :
    simplify_geometry (fun _ => some (CoordTree.arr []))
        (fun t => decide (t = CoordTree.arr []))
        (CoordTree.arr [CoordTree.arr [CoordTree.num (123456/1000000)]]) =
      CoordTree.arr [CoordTree.arr [CoordTree.num (123456/1000000)]] ∧
    simplify_geometry (fun _ => some (CoordTree.arr []))
        (fun t => decide (t = CoordTree.arr []))
        (CoordTree.arr [CoordTree.arr [CoordTree.num (123456/1000000)]]) ≠
      round_coords (CoordTree.arr [CoordTree.arr [CoordTree.num (123456/1000000)]]) ∧
    prec5 (simplify_geometry (fun _ => some (CoordTree.arr []))
        (fun t => decide (t = CoordTree.arr []))
        (CoordTree.arr [CoordTree.arr [CoordTree.num (123456/1000000)]])) = false := by
  have h1 : simplify_geometry (fun _ => some (CoordTree.arr []))
      (fun t => decide (t = CoordTree.arr []))
      (CoordTree.arr [CoordTree.arr [CoordTree.num (123456/1000000)]]) =
      CoordTree.arr [CoordTree.arr [CoordTree.num (123456/1000000)]] := by
    simp [simplify_geometry]
  have hq : ¬ ((((round ((123456/1000000 : Rat) * 100000) : Int) : Rat)) =
      (123456/1000000 : Rat) * 100000) := by
    norm_num [round_eq]
  have hz : prec5 (CoordTree.arr [CoordTree.arr [CoordTree.num (123456/1000000)]]) =
      false := by
    simp [prec5, prec5List, hq]
  have hwf : wfTree (CoordTree.arr [CoordTree.arr [CoordTree.num (123456/1000000)]]) =
      true := by
    simp [wfTree, wfList, allNum, isNumC]
  refine ⟨h1, ?_, by rw [h1]; exact hz⟩
  rw [h1]
  intro heq
  rw [heq, round_coords_prec5 _ hwf] at hz
  exact Bool.noConfusion hz

/-- C5 amended: on the successful path the simplified geometry is
returned with coordinates rounded to at most 5 decimal places (for
well-formed geometries); when simplification throws, the fallback is
the original geometry with rounding applied; when simplification
yields an empty result, the original geometry is returned — so no
feature ever loses its shape — but WITHOUT rounding. -/
theorem claim_C5 (sf : CoordTree → Option CoordTree) (ie : CoordTree → Bool)
    (g1 g2 s2 t : CoordTree)
    (h1 : sf g1 = none) (h2 : sf g2 = some s2) (hwf : wfTree t = true) :
    simplify_geometry sf ie g1 = round_coords g1 ∧
    simplify_geometry sf ie g2 = (if ie s2 then g2 else round_coords s2) ∧
    prec5 (round_coords t) = true := by
  refine ⟨?_, ?_, round_coords_prec5 t hwf⟩
  · rw [simplify_geometry, h1]
  · rw [simplify_geometry, h2]

/-- Witness for C5: a throwing simplifier falls back to the rounded
original; an empty simplification result yields the unrounded
original; rounding a well-formed geometry meets the precision bound. -/
theorem claim_C5_witness :
    ((fun t => match t with | CoordTree.arr [] => none | _ => some (CoordTree.arr []))
        (CoordTree.arr []) = none) ∧
    ((fun t => match t with | CoordTree.arr [] => none | _ => some (CoordTree.arr []))
        (CoordTree.arr [CoordTree.num 1]) = some (CoordTree.arr [])) ∧
    wfTree (CoordTree.arr [CoordTree.arr [CoordTree.num 1]]) = true ∧
    (simplify_geometry
        (fun t => match t with | CoordTree.arr [] => none | _ => some (CoordTree.arr []))
        (fun t => decide (t = CoordTree.arr [])) (CoordTree.arr []) =
          round_coords (CoordTree.arr []) ∧
      simplify_geometry
        (fun t => match t with | CoordTree.arr [] => none | _ => some (CoordTree.arr []))
        (fun t => decide (t = CoordTree.arr [])) (CoordTree.arr [CoordTree.num 1]) =
          (if decide (CoordTree.arr [] = CoordTree.arr []) = true then
            CoordTree.arr [CoordTree.num 1] else round_coords (CoordTree.arr [])) ∧
      prec5 (round_coords (CoordTree.arr [CoordTree.arr [CoordTree.num 1]])) = true) := by
  have hw : wfTree (CoordTree.arr [CoordTree.arr [CoordTree.num 1]]) = true := by
    simp [wfTree, wfList, allNum, isNumC]
  exact ⟨rfl, rfl, hw,
    claim_C5 (fun t => match t with | CoordTree.arr [] => none | _ => some (CoordTree.arr []))
      (fun t => decide (t = CoordTree.arr [])) (CoordTree.arr [])
      (CoordTree.arr [CoordTree.num 1]) (CoordTree.arr [])
      (CoordTree.arr [CoordTree.arr [CoordTree.num 1]]) rfl rfl hw⟩

/-- C6 counterexample: two builds over the same remote data and
parameters but run at different wall-clock times differ byte-wise,
because the metadata embeds the `generated` timestamp. -/
theorem claim_C6_counterexample :
    build_year (fun g => some g) (fun _ => false) "gemeenten" 2022
        ["gemeentecode", "gemeentenaam"] "gemeentecode" [] [] "2024-01-01T00:00:00" ≠
      build_year (fun g => some g) (fun _ => false) "gemeenten" 2022
        ["gemeentecode", "gemeentenaam"] "gemeentecode" [] [] "2024-01-01T00:00:01" := by
  intro h
  have h2 : ("2024-01-01T00:00:00" : String) = "2024-01-01T00:00:01" :=
    congrArg (fun c => c.meta.generated) h
  exact absurd h2 (by decide)

/-- C6 amended: the build is deterministic up to the `generated`
timestamp: two runs over the same remote data and parameters produce
identical feature lists and identical metadata apart from
`generated`; byte-identity holds exactly when the two timestamps
coincide. -/
theorem claim_C6 (sf : CoordTree → Option CoordTree) (ie : CoordTree → Bool)
    (ft : String) (yr : Int) (admin : List String) (idf : String)
    (fm : List (String × String)) (raw : List RawFeature) (t1 t2 : String) :
    (build_year sf ie ft yr admin idf fm raw t1).features =
      (build_year sf ie ft yr admin idf fm raw t2).features ∧
    metaSansGenerated (build_year sf ie ft yr admin idf fm raw t1).meta =
      metaSansGenerated (build_year sf ie ft yr admin idf fm raw t2).meta :=
  ⟨rfl, rfl⟩

/-- C7 counterexample: `with_data` counts features whose id merely
MATCHES a fetched record, not features that actually received a value.
A single feature whose matching record carries no indicator values is
reported as 1 enriched although nothing was stored. -/
theorem claim_C7_counterexample :
    (enrich_year [("aantal_inwoners", "aantalInwoners")] [(Val.vstr "GM1", [])]
        "gemeentecode" "gemeenten" 2024 "t"
        ⟨⟨"gemeenten", 2024, "", 1, 0, [], 0, "", "", none⟩,
         [⟨[("gemeentecode", Val.vstr "GM1")], CoordTree.arr []⟩]⟩).meta.with_data ≠
      specReceivedCount [("aantal_inwoners", "aantalInwoners")] [(Val.vstr "GM1", [])]
        "gemeentecode" [⟨[("gemeentecode", Val.vstr "GM1")], CoordTree.arr []⟩] := by
  decide

/-- C7 amended: `with_data` equals the number of features whose
administrative id is truthy and present in the fetched record set
(whether or not any value was stored), for both `enrich_year` and the
`enrich_batch` merge; in particular 3 features of which 2 match report
exactly 2. -/
theorem claim_C7 (fm : List (String × String))
    (stats : List (Val × List (String × Val))) (idf : String)
    (ft : String) (yr : Int) (clock : String) (c : Collection) :
    (enrich_year fm stats idf ft yr clock c).meta.with_data =
      countMatched stats idf c.features ∧
    (enrich_batch fm stats idf ft yr clock c).meta.with_data =
      countMatched stats idf c.features ∧
    (enrich_year [("aantal_inwoners", "aantalInwoners")]
        [(Val.vstr "GM1", [("aantalInwoners", Val.vint 5)]),
         (Val.vstr "GM2", [("aantalInwoners", Val.vint 7)])]
        "gemeentecode" "gemeenten" 2024 "t"
        ⟨⟨"gemeenten", 2024, "", 3, 0, [], 0, "", "", none⟩,
         [⟨[("gemeentecode", Val.vstr "GM1")], CoordTree.arr []⟩,
          ⟨[("gemeentecode", Val.vstr "GM2")], CoordTree.arr []⟩,
          ⟨[("gemeentecode", Val.vstr "GM3")], CoordTree.arr []⟩]⟩).meta.with_data = 2 := by
  refine ⟨?_, ?_, by decide⟩
  · exact enrichMergeY_enriched fm stats idf c.features
  · exact enrichMergeB_enriched (reverseMap fm) stats idf c.features

/-- C8: the initial build and every enrichment pass keep
`metadata.count` equal to the length of `features`.  The build,
`enrich_year` and `enrich_batch` recompute `count` from the merged
list; the SQL and flora/fauna enrichers leave `count` untouched while
preserving the feature count, so they preserve the invariant. -/
theorem claim_C8 (sf : CoordTree → Option CoordTree) (ie : CoordTree → Bool)
    (ft : String) (yr : Int) (admin : List String) (idf : String)
    (fm : List (String × String)) (raw : List RawFeature) (clock : String)
    (stats : List (Val × List (String × Val))) (c : Collection)
    (ffData : List (String × List (String × Option Int))) (nameField : String)
    (bbg lbt : List ((String × Int) × List (String × Val)))
    (domB domL : Bool) (nearestPj : Option Int)
    (h : c.meta.count = c.features.length) :
    (build_year sf ie ft yr admin idf fm raw clock).meta.count =
      (build_year sf ie ft yr admin idf fm raw clock).features.length ∧
    (enrich_year fm stats idf ft yr clock c).meta.count =
      (enrich_year fm stats idf ft yr clock c).features.length ∧
    (enrich_batch fm stats idf ft yr clock c).meta.count =
      (enrich_batch fm stats idf ft yr clock c).features.length ∧
    (flora_enrich_file ffData nameField clock c).meta.count =
      (flora_enrich_file ffData nameField clock c).features.length ∧
    (sql_enrich_file bbg lbt domB domL nearestPj nameField yr clock c).meta.count =
      (sql_enrich_file bbg lbt domB domL nearestPj nameField yr clock c).features.length := by
  refine ⟨rfl, rfl, rfl, ?_, ?_⟩
  · rw [flora_enrich_file]
    by_cases hi : (floraMerge ffData nameField c.features).inds = []
    · simp only [hi, if_true]
      exact h
    · simp only [hi, Bool.false_eq_true, if_neg, if_false]
      rw [floraMerge_len]
      exact h
  · rw [sql_enrich_file]
    by_cases hi : (sqlMerge bbg lbt domB domL nearestPj nameField yr c.features).inds = []
    · simp only [hi, if_true]
      exact h
    · simp only [hi, Bool.false_eq_true, if_neg, if_false]
      rw [sqlMerge_len]
      exact h

/-- Witness for C8 at a concrete collection satisfying the invariant. -/
theorem claim_C8_witness :
    (⟨⟨"gemeenten", 2024, "", 0, 0, [], 0, "", "", none⟩, []⟩ : Collection).meta.count =
      (⟨⟨"gemeenten", 2024, "", 0, 0, [], 0, "", "", none⟩, []⟩ : Collection).features.length ∧
    ((build_year (fun g => some g) (fun _ => false) "gemeenten" 2024 [] "gemeentecode" [] []
        "t").meta.count =
      (build_year (fun g => some g) (fun _ => false) "gemeenten" 2024 [] "gemeentecode" [] []
        "t").features.length ∧
     (enrich_year [] [] "gemeentecode" "gemeenten" 2024 "t"
        ⟨⟨"gemeenten", 2024, "", 0, 0, [], 0, "", "", none⟩, []⟩).meta.count =
      (enrich_year [] [] "gemeentecode" "gemeenten" 2024 "t"
        ⟨⟨"gemeenten", 2024, "", 0, 0, [], 0, "", "", none⟩, []⟩).features.length ∧
     (enrich_batch [] [] "gemeentecode" "gemeenten" 2024 "t"
        ⟨⟨"gemeenten", 2024, "", 0, 0, [], 0, "", "", none⟩, []⟩).meta.count =
      (enrich_batch [] [] "gemeentecode" "gemeenten" 2024 "t"
        ⟨⟨"gemeenten", 2024, "", 0, 0, [], 0, "", "", none⟩, []⟩).features.length ∧
     (flora_enrich_file [] "gemeentenaam" "t"
        ⟨⟨"gemeenten", 2024, "", 0, 0, [], 0, "", "", none⟩, []⟩).meta.count =
      (flora_enrich_file [] "gemeentenaam" "t"
        ⟨⟨"gemeenten", 2024, "", 0, 0, [], 0, "", "", none⟩, []⟩).features.length ∧
     (sql_enrich_file [] [] true true none "gemeentenaam" 2024 "t"
        ⟨⟨"gemeenten", 2024, "", 0, 0, [], 0, "", "", none⟩, []⟩).meta.count =
      (sql_enrich_file [] [] true true none "gemeentenaam" 2024 "t"
        ⟨⟨"gemeenten", 2024, "", 0, 0, [], 0, "", "", none⟩, []⟩).features.length) :=
  ⟨rfl, claim_C8 (fun g => some g) (fun _ => false) "gemeenten" 2024 [] "gemeentecode" [] []
    "t" [] ⟨⟨"gemeenten", 2024, "", 0, 0, [], 0, "", "", none⟩, []⟩ [] "gemeentenaam"
    [] [] true true none rfl⟩

/-- C10: the flora/fauna merge stores an indicator only when its value
is strictly positive.  Merging a row equals merging only its positive
entries (a zero count is indistinguishable from no data), and a key
whose row entries are all zero or missing keeps its previous binding
and is never added. -/
theorem claim_C10 (row : List (String × Option Int)) (props : List (String × Val))
    (inds : List String) (k : String)
    (hz : ∀ p ∈ row, p.1 = k → ffPos p.2 = false) :
    (floraMergeProps row props inds).1 = floraPropsFold row props ∧
    floraPropsFold row props = floraPropsFold (row.filter (fun kv => ffPos kv.2)) props ∧
    lookupKey (floraMergeProps row props inds).1 k = lookupKey props k := by
  refine ⟨floraMergeProps_fst row props inds, floraPropsFold_filter row props, ?_⟩
  rw [floraMergeProps_fst row props inds]
  exact floraPropsFold_lookup row k props hz

/-- Witness for C10: a gemeente with zero recorded species and a
missing observation count gains no keys. -/
theorem claim_C10_witness :
    (∀ p ∈ ([("ff_totaal_soorten", some 0), ("ff_soorten_vogels", none)] :
        List (String × Option Int)), p.1 = "ff_totaal_soorten" → ffPos p.2 = false) ∧
    ((floraMergeProps [("ff_totaal_soorten", some 0), ("ff_soorten_vogels", none)]
        [("gemeentenaam", Val.vstr "X")] []).1 =
      floraPropsFold [("ff_totaal_soorten", some 0), ("ff_soorten_vogels", none)]
        [("gemeentenaam", Val.vstr "X")] ∧
     floraPropsFold [("ff_totaal_soorten", some 0), ("ff_soorten_vogels", none)]
        [("gemeentenaam", Val.vstr "X")] =
      floraPropsFold (([("ff_totaal_soorten", some 0), ("ff_soorten_vogels", none)] :
          List (String × Option Int)).filter (fun kv => ffPos kv.2))
        [("gemeentenaam", Val.vstr "X")] ∧
     lookupKey (floraMergeProps [("ff_totaal_soorten", some 0), ("ff_soorten_vogels", none)]
        [("gemeentenaam", Val.vstr "X")] []).1 "ff_totaal_soorten" =
      lookupKey [("gemeentenaam", Val.vstr "X")] "ff_totaal_soorten") :=
  ⟨by decide,
    claim_C10 [("ff_totaal_soorten", some 0), ("ff_soorten_vogels", none)]
      [("gemeentenaam", Val.vstr "X")] [] "ff_totaal_soorten" (by decide)⟩

end Geo
